import Mathlib

/-!
A verification development for the Gamebryo savegame parser
(`gamebryosavegame.cpp` / `gamebryosavegame.h` / `string_cast.h`).

The embedding models the byte-stream abstraction (`IDecoder`), the framed
reader (`FileWrapper`), the four per-format readers and the constructor
dispatch loop, translated statement by statement from the newest revision of
the source (the napi-based revision, which stores playtime for all formats).

Modelling conventions:
  * bytes are `Nat` values `< 256`; a stream is a `List Nat` plus a cursor and
    the sticky istream fail flag (`failbit`); a failed read leaves the partial
    buffer content, like `std::istream::read`;
  * `tell` on a failed stream is modelled as the cursor (the source's error
    paths always `clear()` and `seek(0, end)` before calling `tell`, so the
    C++ `-1` of `tellg` on a failed stream is never surfaced there);
  * on non-Windows builds `toWC`/`toMB` in `string_cast.h` are the identity,
    so string decoding is modelled as the identity byte-to-char map;
  * `float` is modelled by exactly decoding the IEEE-754 binary32 bit pattern
    into a dyadic rational (an integer numerator over `2^150`); the one float
    product (`gameDays * 24`) is taken exactly (its rounding to binary32
    cannot change the truncated values appearing in the claims under
    scrutiny);
  * the environment-dependent pieces (`mktime`, `stat` mtime fallback,
    `LZ4_decompress_safe`, allocation success) are parameters of the parse,
    collected in `Env`.
-/

set_option maxRecDepth 100000

namespace Gamebryo

/-- A byte of the save file, a `Nat` below 256. -/
abbrev Byte := Nat

/-- Model of `IDecoder`: a byte source with a cursor and the sticky istream
fail flag.  `DirectDecoder` wraps the file contents, the LZ4 adapter a
decompressed memory buffer; both expose the same read/seek interface, so one
structure models both. -/
structure Decoder where
  data : List Byte
  pos : Nat
  failed : Bool
deriving Repr, DecidableEq

/-- `istream::read(buffer, n)`: on a failed stream nothing is read; otherwise
the available bytes are copied and, if fewer than `n` remain, the fail flag is
set.  Returns the bytes actually placed in the buffer, the new stream state
and the success flag. -/
def Decoder.readBytes (d : Decoder) (n : Nat) : List Byte × Decoder × Bool :=
  if d.failed then ([], d, false)
  else if ((d.data.drop d.pos).take n).length = n then
    ((d.data.drop d.pos).take n, { d with pos := d.pos + n }, true)
  else ((d.data.drop d.pos).take n,
    { d with pos := d.pos + ((d.data.drop d.pos).take n).length, failed := true }, false)

/-- `seekg(off, beg)`: fails on a failed stream (`failbit` blocks seeking) and
when the target lies beyond the end of the buffer. -/
def Decoder.seekTo (d : Decoder) (off : Nat) : Decoder × Bool :=
  if d.failed then (d, false)
  else if off ≤ d.data.length then ({ d with pos := off }, true)
  else (d, false)

/-- `seekg(delta, cur)` for a forward skip. -/
def Decoder.seekCur (d : Decoder) (delta : Nat) : Decoder × Bool :=
  if d.failed then (d, false)
  else if d.pos + delta ≤ d.data.length then ({ d with pos := d.pos + delta }, true)
  else (d, false)

/-- The error path `m_Decoder->clear(); m_Decoder->seek(0, std::ios::end)`:
reset the fail flag, cursor to end of stream. -/
def Decoder.clearSeekEnd (d : Decoder) : Decoder :=
  { d with failed := false, pos := d.data.length }

/-- `tell()` (see the modelling note on failed streams). -/
def Decoder.tell (d : Decoder) : Nat := d.pos

/-- `windowsTicksToEpoch` from the source: 100ns ticks since 1601-01-01 to
seconds since the Unix epoch.  C++ `int64_t` division truncates toward zero
(`Int.tdiv`); the `static_cast<uint32_t>` wraps modulo `2^32`. -/
def windowsTicksToEpoch (windowsTicks : Int) : Nat :=
  (Int.emod (Int.tdiv windowsTicks 10000000 - 11644473600) ((2 : Int) ^ 32)).toNat

/-- The callers pass a `uint64_t` FILETIME into the `int64_t` parameter of
`windowsTicksToEpoch`; two's-complement conversion. -/
def u64ToInt64 (n : Nat) : Int :=
  if n < 2 ^ 63 then (n : Int) else (n : Int) - 2 ^ 64

/-- A `float` value, exactly: the dyadic rational `num / 2^150`.
Every binary32 value (normal or subnormal) has this form. -/
structure F32 where
  num : Int
deriving Repr, DecidableEq

/-- Exact value of an IEEE-754 binary32 bit pattern.
Bit patterns with exponent 255 (infinities, NaNs) are outside the behaviour
the source defines (`floor`/casts on them are UB) and are given the value of
the same scaled significand. -/
def decodeF32bits (bits : Nat) : F32 :=
  let sign := bits / 2 ^ 31 % 2
  let expo := bits / 2 ^ 23 % 256
  let frac := bits % 2 ^ 23
  let mag : Nat := if expo = 0 then 2 * frac else (2 ^ 23 + frac) * 2 ^ expo
  ⟨if sign = 1 then -(mag : Int) else (mag : Int)⟩

/-- C++ truncation toward zero, `static_cast<int>` on a float value. -/
def F32.trunc (f : F32) : Int := Int.tdiv f.num ((2 : Int) ^ 150)

/-- The C `floor` on a float value (an integral float), then `static_cast<int>`:
together the floor of the value. -/
def F32.floorInt (f : F32) : Int := Int.fdiv f.num ((2 : Int) ^ 150)

/-- The float product `gameDays * 24`, taken exactly (see the module note). -/
def F32.mul24 (f : F32) : F32 := ⟨f.num * 24⟩

/-- C++ `%` on `int` (truncated remainder, sign of the dividend). -/
def cppMod (a b : Int) : Int := a - b * Int.tdiv a b

/-- The Oblivion playtime synthesis
`to_string(int(floor(gameDays))) + " days, " + to_string(int(int(gameDays*24) % 24)) + " hours"`. -/
def oblivionPlaytimeStr (gameDays : F32) : String :=
  toString gameDays.floorInt ++ " days, "
    ++ toString (cppMod (F32.trunc gameDays.mul24) 24) ++ " hours"

/-- The little-endian value of a byte list. -/
def leVal : List Byte → Nat
  | [] => 0
  | b :: bs => b + 256 * leVal bs

/-- The little-endian byte encoding of a value, `n` bytes wide. -/
def leBytes (n : Nat) (v : Nat) : List Byte :=
  match n with
  | 0 => []
  | m + 1 => v % 256 :: leBytes m (v / 256)

/-- Identity byte-to-char decoding: on non-Windows builds `toWC`/`toMB` in
`string_cast.h` are the identity, so a decoded string holds one char per
byte. -/
def bytesToStr (bs : List Byte) : String :=
  String.mk (bs.map Char.ofNat)

/-- The errors a parse can raise: `std::runtime_error` (invalid header and
end-of-file messages), and `DataInvalid` carrying the offset at which it was
thrown. -/
inductive GErr where
  | invalidHeader
  | runtime (msg : String)
  | dataInvalid (msg : String) (offset : Nat)
deriving Repr, DecidableEq

/-- The message of the raw read failure path
(`GamebryoSaveGame::FileWrapper::read(void*, size_t)`); note the stray
`"xyz "` prefix present in the source's format string. -/
def rawReadMsg (off n : Nat) : String :=
  "xyz unexpected end of file at \"" ++ toString off ++ "\" (read of \""
    ++ toString n ++ "\" bytes)"

/-- The message of the typed read failure path (the `read<T>` template in the
header). -/
def typedReadMsg (off n : Nat) : String :=
  "unexpected end of file at \"" ++ toString off ++ "\" (read of \""
    ++ toString n ++ "\" bytes)"

/-- The message of the skip failure path (the `skip<T>` template). -/
def skipMsg (off n : Nat) : String :=
  "unexpected end of file at \"" ++ toString off ++ "\" (skip of \""
    ++ toString n ++ "\" bytes)"

/-- The environment a parse runs in: the pieces of behaviour the source
delegates to the C runtime and to the native libraries.
  * `mktime`: the C `mktime` applied to the broken-down WINSYSTEMTIME fields
    (year, month, day, hour, minute, second as read from the file); opaque,
    local-time dependent;
  * `statMtime`: the `st_mtime` of the file if `stat` succeeds;
  * `allocFails`: whether `std::vector::resize` to the given byte count
    throws `std::bad_alloc`;
  * `lz4`: `LZ4_decompress_safe` output for given compressed bytes and
    declared uncompressed size (the source ignores its return code). -/
structure Env where
  mktime : Nat → Nat → Nat → Nat → Nat → Nat → Int
  statMtime : Option Nat
  allocFails : Nat → Bool
  lz4 : List Byte → Nat → List Byte

/-- `GamebryoSaveGame`'s summary fields (`m_PCName`, `m_PCLevel`, ...).
`m_QuickRead` is passed separately to the readers, mirroring the constructor
argument.  `oom` records that `NBIND_ERR("Out of memory")` was signalled. -/
structure Game where
  pcName : String
  pcLevel : Nat
  pcLocation : String
  playtime : String
  saveNumber : Nat
  creationTime : Nat
  plugins : List String
  dimW : Nat
  dimH : Nat
  screenshot : List Byte
  oom : Bool
deriving Repr, DecidableEq

/-- The freshly constructed `GamebryoSaveGame` (member initialisers plus
default construction). -/
def game0 : Game :=
  { pcName := "", pcLevel := 0, pcLocation := "", playtime := ""
    saveNumber := 0, creationTime := 0, plugins := [], dimW := 0, dimH := 0
    screenshot := [], oom := false }

/-- `FileWrapper`: the active decoder and the reader flags. -/
structure FW where
  dec : Decoder
  hasFieldMarkers : Bool
  bzString : Bool
deriving Repr, DecidableEq

/-- `FileWrapper::read(void *buff, std::size_t length)`: raw read; on failure
clear + seek(end), then throw with the (`"xyz "`-prefixed) message. -/
def FW.readRaw (fw : FW) (n : Nat) : Except GErr (List Byte × FW) :=
  let r := fw.dec.readBytes n
  if r.2.2 then .ok (r.1, { fw with dec := r.2.1 })
  else .error (.runtime (rawReadMsg r.2.1.clearSeekEnd.tell n))

/-- The `read<T>` template for a primitive `T` of byte width `n`: read the
value little-endian; on failure clear + seek(end) and throw; on success, if
field markers are active, read one byte directly from the decoder (its
success is not checked; a failed read leaves the marker byte unread, modelled
as the value 0) and `sanityCheck` it to be `'|'`. -/
def FW.readLE (fw : FW) (n : Nat) : Except GErr (Nat × FW) :=
  let r := fw.dec.readBytes n
  if r.2.2 then
    let fw1 : FW := { fw with dec := r.2.1 }
    if fw1.hasFieldMarkers then
      let m := fw1.dec.readBytes 1
      let marker := if m.1.length = 1 then m.1.headI else 0
      let fw2 : FW := { fw1 with dec := m.2.1 }
      if marker = 0x7c then .ok (leVal r.1, fw2)
      else .error (.dataInvalid "Expected field separator" fw2.dec.tell)
    else .ok (leVal r.1, fw1)
  else .error (.runtime (typedReadMsg r.2.1.clearSeekEnd.tell n))

/-- The `skip<T>(count)` template, with `n = count * sizeof(T)` bytes:
`seekg(n, cur)`; on failure clear + seek(end) and throw. -/
def FW.skipBytes (fw : FW) (n : Nat) : Except GErr FW :=
  let s := fw.dec.seekCur n
  if s.2 then .ok { fw with dec := s.1 }
  else .error (.runtime (skipMsg s.1.clearSeekEnd.tell n))

/-- `FileWrapper::readBString`: u8 length, then that many raw bytes; no NUL
stripped, no field marker, no encoding conversion. -/
def FW.readBString (fw : FW) : Except GErr (String × FW) := do
  let (len, fw1) ← fw.readLE 1
  let (buf, fw2) ← fw1.readRaw len
  .ok (bytesToStr buf, fw2)

/-- The `read<std::string>` specialisation: u8 length in bzstring mode, else
u16 length; for a non-zero length, the payload by raw read, the final NUL
dropped in bzstring mode, and, with field markers active, one directly read
byte `sanityCheck`ed to be `'|'`.  A zero length skips payload and marker.
The codepage round-trip `toMB(toWC(...))` is the identity here (non-Windows
`string_cast.h`). -/
def FW.readStr (fw : FW) : Except GErr (String × FW) := do
  let (length, fw1) ← if fw.bzString then fw.readLE 1 else fw.readLE 2
  if length ≠ 0 then
    let (buf, fw2) ← fw1.readRaw length
    let buf2 := if fw2.bzString then buf.dropLast else buf
    if fw2.hasFieldMarkers then
      let m := fw2.dec.readBytes 1
      let sep := if m.1.length = 1 then m.1.headI else 0
      let fw3 : FW := { fw2 with dec := m.2.1 }
      if sep = 0x7c then .ok (bytesToStr buf2, fw3)
      else .error (.dataInvalid "Expected field separator" fw3.dec.tell)
    else .ok (bytesToStr buf2, fw2)
  else .ok ("", fw1)

/-- `FileWrapper::header(expected)`: seek to 0 and read `strlen(expected)`
bytes into a zero-filled buffer, ignoring failures of both the seek and the
read; compare with the magic. -/
def headerProbe (magic : List Byte) (d : Decoder) : Bool × Decoder :=
  let r := ((d.seekTo 0).1).readBytes magic.length
  (decide (r.1 ++ List.replicate (magic.length - r.1.length) 0 = magic), r.2.1)

/-- `FileWrapper::setCompression`: only format 2 (LZ4) installs an adapter;
every other format value (including 1, the zlib format) leaves the decoder
untouched.  The LZ4 adapter reads `compressedSize` bytes from the wrapped
decoder into a zero-filled buffer (the read's result is not checked), runs
`LZ4_decompress_safe` into a buffer of exactly `uncompressedSize` bytes
(the result code is not checked either; the model pads/truncates the
environment's output to that size) and replaces the decoder by a fresh
memory stream over it. -/
def FW.setCompression (env : Env) (format : Nat) (compressedSize uncompressedSize : Nat)
    (fw : FW) : FW :=
  if format = 2 then
    let (buf, _, _) := fw.dec.readBytes compressedSize
    let compressed := buf ++ List.replicate (compressedSize - buf.length) 0
    let out := env.lz4 compressed uncompressedSize
    let uncompressed := (out ++ List.replicate uncompressedSize 0).take uncompressedSize
    { fw with dec := { data := uncompressed, pos := 0, failed := false } }
  else fw

/-- `FileWrapper::sanityCheck`: throw `DataInvalid` at the current offset when
the condition fails. -/
def FW.sanityCheck (fw : FW) (conditionMatch : Bool) (message : String) :
    Except GErr Unit :=
  if conditionMatch then .ok () else .error (.dataInvalid message fw.dec.tell)

/-- The RGB-to-RGBA expansion loop of `readImage`: copy each triplet and
append an opaque alpha byte. -/
def expandRGB : List Byte → List Byte
  | r :: g :: b :: rest => r :: g :: b :: 0xFF :: expandRGB rest
  | rest => rest

/-- `readImage(width, height, alpha)`: bounds checks, allocation (which may
fail: `NBIND_ERR` and plain return), dimension recording, pixel read, and
RGBA conversion for the 3-bpp case. -/
def FW.readImageWH (env : Env) (width height : Nat) (alpha : Bool) (g : Game)
    (fw : FW) : Except GErr (Game × FW) := do
  let _ ← fw.sanityCheck (width < 2000) "invalid width"
  let _ ← fw.sanityCheck (height < 2000) "invalid height"
  let bpp := if alpha then 4 else 3
  let bytes := width * height * bpp
  if env.allocFails bytes then
    .ok ({ g with oom := true }, fw)
  else
    let g1 := { g with dimW := width, dimH := height }
    let (buffer, fw1) ← fw.readRaw bytes
    if alpha then
      .ok ({ g1 with screenshot := buffer }, fw1)
    else
      .ok ({ g1 with screenshot := expandRGB buffer }, fw1)

/-- `readImage(alpha)`: the overload reading width and height (u32 each) from
the stream first. -/
def FW.readImage0 (env : Env) (alpha : Bool) (g : Game) (fw : FW) :
    Except GErr (Game × FW) := do
  let (width, fw1) ← fw.readLE 4
  let (height, fw2) ← fw1.readLE 4
  FW.readImageWH env width height alpha g fw2

/-- The loop body of `readPlugins`, `count` iterations: read a name (bzstring
or u16-length string), `sanityCheck` its length against 256, `push_back`. -/
def FW.readPluginsLoop (bStrings : Bool) : Nat → Game → FW → Except GErr (Game × FW)
  | 0, g, fw => .ok (g, fw)
  | i + 1, g, fw => do
    let (name, fw1) ← if bStrings then fw.readBString else fw.readStr
    let _ ← fw1.sanityCheck (name.length ≤ 256) "Invalid plugin name"
    FW.readPluginsLoop bStrings i { g with plugins := g.plugins ++ [name] } fw1

/-- `FileWrapper::readPlugins(bStrings)`: u8 count, then the loop. -/
def FW.readPlugins (bStrings : Bool) (g : Game) (fw : FW) : Except GErr (Game × FW) := do
  let (count, fw1) ← fw.readLE 1
  FW.readPluginsLoop bStrings count g fw1

/-- The loop body of `readLightPlugins`, `count` iterations. -/
def FW.readLightPluginsLoop : Nat → Game → FW → Except GErr (Game × FW)
  | 0, g, fw => .ok (g, fw)
  | i + 1, g, fw => do
    let (name, fw1) ← fw.readStr
    let _ ← fw1.sanityCheck (name.length ≤ 256) "Invalid light plugin name"
    FW.readLightPluginsLoop i { g with plugins := g.plugins ++ [name] } fw1

/-- `FileWrapper::readLightPlugins`: u16 count, then the loop; the light
plugins are appended to the same `m_Plugins` list. -/
def FW.readLightPlugins (g : Game) (fw : FW) : Except GErr (Game × FW) := do
  let (count, fw1) ← fw.readLE 2
  FW.readLightPluginsLoop count g fw1

theorem readBytes_ok_spec {d : Decoder} {n : Nat} {buf : List Byte} {d' : Decoder}
    (h : d.readBytes n = (buf, d', true)) :
    d.failed = false ∧ d' = { d with pos := d.pos + n } ∧
      buf = (d.data.drop d.pos).take n ∧ buf.length = n := by
  unfold Decoder.readBytes at h
  split at h
  · simp at h
  · next hfail =>
    split at h
    · next hlen =>
      injection h with h1 h2
      injection h2 with h2 h3
      subst h1; subst h2
      exact ⟨by simpa using hfail, rfl, rfl, hlen⟩
    · simp at h

theorem readBytes_ok_bound {d : Decoder} {n : Nat} {buf : List Byte} {d' : Decoder}
    (hn : 0 < n) (h : d.readBytes n = (buf, d', true)) :
    d.pos + n ≤ d.data.length := by
  obtain ⟨-, -, hbuf, hlen⟩ := readBytes_ok_spec h
  have hmineq : buf.length = min n (d.data.length - d.pos) := by
    rw [hbuf, List.length_take, List.length_drop]
  rw [Nat.min_def] at hmineq
  split at hmineq <;> omega

theorem readBytes_data_eq {d : Decoder} {n : Nat} {buf : List Byte} {d' : Decoder}
    {ok : Bool} (h : d.readBytes n = (buf, d', ok)) : d'.data = d.data := by
  unfold Decoder.readBytes at h
  split at h
  · injection h with h1 h2; injection h2 with h2 h3; subst h2; rfl
  · split at h
    · injection h with h1 h2; injection h2 with h2 h3; subst h2; rfl
    · injection h with h1 h2; injection h2 with h2 h3; subst h2; rfl

theorem readBytes_false_nil {d : Decoder} {buf : List Byte} {d' : Decoder}
    (h : d.readBytes 1 = (buf, d', false)) : buf = [] := by
  unfold Decoder.readBytes at h
  split at h
  · injection h with h1 h2; exact h1.symm
  · split at h
    · simp at h
    · next hlen =>
      injection h with h1 h2
      subst h1
      cases hbuf : (d.data.drop d.pos).take 1 with
      | nil => rfl
      | cons a l =>
        exfalso
        have h1le : ((d.data.drop d.pos).take 1).length ≤ 1 := by
          simpa using List.length_take_le 1 (d.data.drop d.pos)
        rw [hbuf] at h1le hlen
        simp only [List.length_cons] at h1le hlen
        omega

theorem readLE_ok_advance {fw : FW} {n v : Nat} {fw' : FW} (hn : 0 < n)
    (h : fw.readLE n = .ok (v, fw')) :
    fw'.dec.data = fw.dec.data ∧ fw.dec.pos < fw'.dec.pos ∧
      fw'.dec.pos ≤ fw.dec.data.length := by
  simp only [FW.readLE] at h
  rcases hr : fw.dec.readBytes n with ⟨buf, d, ok⟩
  rw [hr] at h
  cases ok with
  | false => simp at h
  | true =>
    obtain ⟨hfail, hd, hbuf, hlen⟩ := readBytes_ok_spec hr
    have hbound := readBytes_ok_bound hn hr
    dsimp only [] at h
    by_cases hm : fw.hasFieldMarkers
    · rw [if_pos hm] at h
      rcases hr2 : d.readBytes 1 with ⟨mbuf, d2, mok⟩
      rw [hr2] at h
      dsimp only [] at h
      cases mok with
      | false =>
        have hnil := readBytes_false_nil hr2
        subst hnil
        simp at h
      | true =>
        obtain ⟨-, hd2, -, -⟩ := readBytes_ok_spec hr2
        have hb2 := readBytes_ok_bound (by decide) hr2
        by_cases hsep : (if mbuf.length = 1 then mbuf.headI else 0) = 124
        · rw [if_pos hsep] at h
          cases h
          subst hd2; subst hd
          refine ⟨rfl, by simp; omega, by simp; simp at hb2; omega⟩
        · rw [if_neg hsep] at h
          cases h
    · rw [if_neg hm] at h
      cases h
      subst hd
      exact ⟨rfl, by simp; omega, by simpa using hbound⟩

/-- The Fallout 3 / New Vegas disambiguation loop:
`for (unsigned char ignore = 0; ignore != 0x7c; ++fieldSize) file.read(ignore);`
reads single bytes until a `'|'` appears, counting the terminator. -/
def fo3Probe (fw : FW) (fieldSize : Nat) : Except GErr (Nat × FW) :=
  match h : fw.readLE 1 with
  | .error e => .error e
  | .ok (b, fw1) =>
    if b = 0x7c then .ok (fieldSize + 1, fw1)
    else fo3Probe fw1 (fieldSize + 1)
termination_by fw.dec.data.length - fw.dec.pos
decreasing_by
  obtain ⟨h1, h2, h3⟩ := readLE_ok_advance (by decide) h
  rw [h1]
  omega

/-- `GamebryoSaveGame::readOblivion`, the part before the `m_QuickRead`
check: bzstring mode, header skips, save number, name, level, location, the
playtime synthesis from the `float` game days, and the WINSYSTEMTIME
converted through `mktime` (assigned to the `uint32_t` member). -/
def readOblivionCore (env : Env) (g : Game) (fw0 : FW) : Except GErr (Game × FW) := do
  let fw := { fw0 with bzString := true }
  let fw ← fw.skipBytes 1        -- major version
  let fw ← fw.skipBytes 1        -- minor version
  let fw ← fw.skipBytes 16       -- WINSYSTEMTIME exe last modified
  let fw ← fw.skipBytes 4        -- header version
  let fw ← fw.skipBytes 4        -- header size
  let (saveNumber, fw) ← fw.readLE 4
  let (pcName, fw) ← fw.readStr
  let (pcLevel, fw) ← fw.readLE 2
  let (pcLocation, fw) ← fw.readStr
  let (gameDaysBits, fw) ← fw.readLE 4
  let playtime := oblivionPlaytimeStr (decodeF32bits gameDaysBits)
  let fw ← fw.skipBytes 4        -- game ticks
  let (wt, fw) ← fw.readLE 16    -- WINSYSTEMTIME, eight LE u16 fields
  let year := wt % 65536
  let month := wt / 65536 % 65536
  let day := wt / 65536 ^ 3 % 65536
  let hour := wt / 65536 ^ 4 % 65536
  let minute := wt / 65536 ^ 5 % 65536
  let second := wt / 65536 ^ 6 % 65536
  let creationTime := (Int.emod (env.mktime year month day hour minute second)
    ((2 : Int) ^ 32)).toNat
  .ok ({ g with
        saveNumber := saveNumber, pcName := pcName, pcLevel := pcLevel,
        pcLocation := pcLocation, playtime := playtime,
        creationTime := creationTime }, fw)

/-- The `!m_QuickRead` tail of `readOblivion`: screenshot size skip, image,
plugins (bStrings). -/
def readOblivionRest (env : Env) (g : Game) (fw : FW) : Except GErr (Game × FW) := do
  let fw ← fw.skipBytes 4        -- screenshot size
  let (g, fw) ← FW.readImage0 env false g fw
  FW.readPlugins true g fw

/-- `GamebryoSaveGame::readOblivion`. -/
def readOblivion (env : Env) (quick : Bool) (g : Game) (fw : FW) :
    Except GErr (Game × FW) := do
  let (g, fw) ← readOblivionCore env g fw
  if quick then .ok (g, fw) else readOblivionRest env g fw

/-- `GamebryoSaveGame::readSkyrim`, the part before the `m_QuickRead` check;
also returns the header version, which the tail needs. -/
def readSkyrimCore (env : Env) (g : Game) (fw : FW) :
    Except GErr (Nat × Game × FW) := do
  let fw ← fw.skipBytes 4        -- header size
  let (version, fw) ← fw.readLE 4
  let (saveNumber, fw) ← fw.readLE 4
  let (pcName, fw) ← fw.readStr
  let (temp, fw) ← fw.readLE 4
  let (pcLocation, fw) ← fw.readStr
  let (playtime, fw) ← fw.readStr
  let (_race, fw) ← fw.readStr
  let fw ← fw.skipBytes 2        -- gender
  let fw ← fw.skipBytes 8        -- 2 floats of experience
  let (ftime, fw) ← fw.readLE 8
  .ok (version, { g with
        saveNumber := saveNumber, pcName := pcName,
        pcLevel := temp % 65536, pcLocation := pcLocation, playtime := playtime,
        creationTime := windowsTicksToEpoch (u64ToInt64 ftime) }, fw)

/-- The screenshot part of `readSkyrim`'s `!m_QuickRead` tail: the original
format reads the image with embedded dimensions; Skyrim SE (version ≥ 0x0c)
reads width, height and the compression format, the RGBA image, the
uncompressed and compressed sizes (in that order), and calls
`setCompression`. -/
def readSkyrimImageStage (env : Env) (version : Nat) (g : Game) (fw : FW) :
    Except GErr (Game × FW) :=
  if version < 0x0c then
    FW.readImage0 env false g fw
  else do
    let (width, fw) ← fw.readLE 4
    let (height, fw) ← fw.readLE 4
    let (compressionFormat, fw) ← fw.readLE 2
    let (g, fw) ← FW.readImageWH env width height true g fw
    let (uncompressed, fw) ← fw.readLE 4
    let (compressed, fw) ← fw.readLE 4
    .ok (g, fw.setCompression env compressionFormat compressed uncompressed)

/-- The plugin part of `readSkyrim`'s `!m_QuickRead` tail: form version,
plugin info size skip, plugins, and (form version ≥ 0x4e) light plugins. -/
def readSkyrimPluginStage (env : Env) (g : Game) (fw : FW) :
    Except GErr (Game × FW) := do
  let (formVersion, fw) ← fw.readLE 1
  let fw ← fw.skipBytes 4        -- plugin info size
  let (g, fw) ← FW.readPlugins false g fw
  if formVersion ≥ 0x4e then FW.readLightPlugins g fw else .ok (g, fw)

/-- The `!m_QuickRead` tail of `readSkyrim`. -/
def readSkyrimRest (env : Env) (version : Nat) (g : Game) (fw : FW) :
    Except GErr (Game × FW) := do
  let (g, fw) ← readSkyrimImageStage env version g fw
  readSkyrimPluginStage env g fw

/-- `GamebryoSaveGame::readSkyrim`. -/
def readSkyrim (env : Env) (quick : Bool) (g : Game) (fw : FW) :
    Except GErr (Game × FW) := do
  let (version, g, fw) ← readSkyrimCore env g fw
  if quick then .ok (g, fw) else readSkyrimRest env version g fw

/-- `GamebryoSaveGame::readFO3`, the part before the `m_QuickRead` check:
header skips, the `'|'` probe with possible rewind, field markers on, and the
marker-terminated reads of the summary fields; also returns the width and
height the tail needs. -/
def readFO3Core (env : Env) (g : Game) (fw : FW) :
    Except GErr (Nat × Nat × Game × FW) := do
  let fw ← fw.skipBytes 4        -- save header size
  let fw ← fw.skipBytes 4        -- file version, always 0x30
  let fw ← fw.skipBytes 1        -- delimiter
  let pos := fw.dec.tell
  let (fieldSize, fw) ← fo3Probe fw 0
  -- `FileWrapper::seek` ignores the decoder seek's success
  let fw := if fieldSize = 5 then { fw with dec := (fw.dec.seekTo pos).1 } else fw
  let fw := { fw with hasFieldMarkers := true }
  let (width, fw) ← fw.readLE 4
  let (height, fw) ← fw.readLE 4
  let (saveNumber, fw) ← fw.readLE 4
  let (pcName, fw) ← fw.readStr
  let (_unknown, fw) ← fw.readStr
  let (level, fw) ← fw.readLE 4
  let (pcLocation, fw) ← fw.readStr
  let (playtime, fw) ← fw.readStr
  .ok (width, height, { g with
        saveNumber := saveNumber, pcName := pcName,
        pcLevel := level % 65536, pcLocation := pcLocation,
        playtime := playtime }, fw)

/-- The `!m_QuickRead` tail of `readFO3`: image with the already read
dimensions, a five byte skip, plugins. -/
def readFO3Rest (env : Env) (width height : Nat) (g : Game) (fw : FW) :
    Except GErr (Game × FW) := do
  let (g, fw) ← FW.readImageWH env width height false g fw
  let fw ← fw.skipBytes 5        -- unknown byte, size of plugin data
  FW.readPlugins false g fw

/-- `GamebryoSaveGame::readFO3`. -/
def readFO3 (env : Env) (quick : Bool) (g : Game) (fw : FW) :
    Except GErr (Game × FW) := do
  let (width, height, g, fw) ← readFO3Core env g fw
  if quick then .ok (g, fw) else readFO3Rest env width height g fw

/-- `GamebryoSaveGame::readFO4`, the part before the `m_QuickRead` check. -/
def readFO4Core (env : Env) (g : Game) (fw : FW) : Except GErr (Game × FW) := do
  let fw ← fw.skipBytes 4        -- header size
  let fw ← fw.skipBytes 4        -- header version
  let (saveNumber, fw) ← fw.readLE 4
  let (pcName, fw) ← fw.readStr
  let (temp, fw) ← fw.readLE 4
  let (pcLocation, fw) ← fw.readStr
  let (playtime, fw) ← fw.readStr
  let (_race, fw) ← fw.readStr
  let fw ← fw.skipBytes 2        -- gender
  let fw ← fw.skipBytes 8        -- 2 floats of experience
  let (ftime, fw) ← fw.readLE 8
  .ok ({ g with
        saveNumber := saveNumber, pcName := pcName,
        pcLevel := temp % 65536, pcLocation := pcLocation, playtime := playtime,
        creationTime := windowsTicksToEpoch (u64ToInt64 ftime) }, fw)

/-- The `!m_QuickRead` tail of `readFO4`: image (alpha, embedded dimensions),
form version, discarded game version string, plugin info size, plugins and
(form version `≥ 0x44`) light plugins. -/
def readFO4Rest (env : Env) (g : Game) (fw : FW) : Except GErr (Game × FW) := do
  let (g, fw) ← FW.readImage0 env true g fw
  let (formVersion, fw) ← fw.readLE 1
  let (_gameVersion, fw) ← fw.readStr
  let fw ← fw.skipBytes 4        -- plugin info size
  let (g, fw) ← FW.readPlugins false g fw
  if formVersion ≥ 0x44 then FW.readLightPlugins g fw else .ok (g, fw)

/-- `GamebryoSaveGame::readFO4`. -/
def readFO4 (env : Env) (quick : Bool) (g : Game) (fw : FW) :
    Except GErr (Game × FW) := do
  let (g, fw) ← readFO4Core env g fw
  if quick then .ok (g, fw) else readFO4Rest env g fw

/-- The type of a format reader, as dispatched by the constructor. -/
abbrev ReadFn := Env → Bool → Game → FW → Except GErr (Game × FW)

/-- The four magic strings, as byte lists. -/
def magicTES4 : List Byte := "TES4SAVEGAME".data.map Char.toNat

def magicTESV : List Byte := "TESV_SAVEGAME".data.map Char.toNat

def magicFO3 : List Byte := "FO3SAVEGAME".data.map Char.toNat

def magicFO4 : List Byte := "FO4_SAVEGAME".data.map Char.toNat

/-- The constructor's dispatch table, probed in source order. -/
def formatTable : List (List Byte × ReadFn) :=
  [(magicTES4, readOblivion), (magicTESV, readSkyrim),
   (magicFO3, readFO3), (magicFO4, readFO4)]

/-- The constructor's probe loop.  It does not break on a match: every entry
is probed, and each matching entry's reader runs.  `count` counts the
matches; the source's `found` flag corresponds to `count ≠ 0`. -/
def ctorLoop (env : Env) (quick : Bool) :
    List (List Byte × ReadFn) → Nat → Game → FW → Except GErr (Nat × Game × FW)
  | [], count, g, fw => .ok (count, g, fw)
  | (magic, rd) :: rest, count, g, fw =>
    let p := headerProbe magic fw.dec
    let fw1 : FW := { fw with dec := p.2 }
    if p.1 then
      match rd env quick g fw1 with
      | .error e => .error e
      | .ok (g2, fw2) => ctorLoop env quick rest (count + 1) g2 fw2
    else ctorLoop env quick rest count g fw1

/-- The creation-time fallback at the end of the constructor: if the parsed
`m_CreationTime` is zero, use the file's `st_mtime` (truncated to `u32`) when
`stat` succeeds; a `stat` failure leaves it zero. -/
def applyMtimeFallback (env : Env) (g : Game) : Game :=
  if g.creationTime = 0 then
    match env.statMtime with
    | some t => { g with creationTime := t % 2 ^ 32 }
    | none => g
  else g

/-- The `GamebryoSaveGame` constructor on the file contents `data`: fresh
`FileWrapper` over a `DirectDecoder`, the probe loop, `"invalid file header"`
when nothing matched, then the mtime fallback. -/
def gamebryoParse (env : Env) (data : List Byte) (quick : Bool) :
    Except GErr Game :=
  match ctorLoop env quick formatTable 0 game0
      { dec := { data := data, pos := 0, failed := false },
        hasFieldMarkers := false, bzString := false } with
  | .error e => .error e
  | .ok (count, g, _) =>
    if count = 0 then .error .invalidHeader
    else .ok (applyMtimeFallback env g)

/-- ASCII bytes of a string (for fixtures and magics). -/
def asciiBytes (s : String) : List Byte := s.data.map Char.toNat

/-- A fixed environment for concrete runs: an arbitrary `mktime`, a failed
`stat`, allocations succeed, `LZ4_decompress_safe` copies its input. -/
def envW : Env :=
  { mktime := fun _ _ _ _ _ _ => 12345, statMtime := none,
    allocFails := fun _ => false, lz4 := fun c _ => c }

/-- A minimal Oblivion fixture, parameterised by the four gameDays bytes:
magic, version bytes, WINSYSTEMTIME skip, header version and size, save
number 7, bzstring name "Hero", level 5, bzstring location, gameDays,
game ticks, WINSYSTEMTIME. -/
def obvFile (gdBytes : List Byte) : List Byte :=
  asciiBytes "TES4SAVEGAME" ++ [1, 0] ++ List.replicate 16 0
    ++ leBytes 4 125 ++ leBytes 4 0 ++ leBytes 4 7
    ++ [5] ++ asciiBytes "Hero" ++ [0] ++ leBytes 2 5 ++ [1, 0]
    ++ gdBytes ++ leBytes 4 0 ++ List.replicate 16 0

/-!  ## Claim theorems -/

/-- Claim C3, counterexample: the program's FILETIME conversion applied to
ticks = 132_223_104_000_000_000 does not yield 1_578_441_600 (the claimed
value is the epoch of 2020-01-08, but these ticks denote 2020-01-01). -/
theorem c3_counterexample : windowsTicksToEpoch 132223104000000000 ≠ 1578441600 := by
  decide

/-- Claim C3 as amended: `windowsTicksToEpoch` (`ticks/10^7 − 11_644_473_600`
truncated into u32) maps ticks = 132_223_104_000_000_000 to
creation_time = 1_577_836_800 (2020-01-01T00:00:00Z). -/
theorem c3_amended : windowsTicksToEpoch 132223104000000000 = 1577836800 := by
  decide

/-- A `FileWrapper` mid-file (cursor at 2), for exercising `setCompression`. -/
def fwC1 : FW :=
  { dec := { data := [1, 2, 3, 4, 5, 6, 7, 8], pos := 2, failed := false },
    hasFieldMarkers := false, bzString := false }

/-- Claim C1, counterexample: `setCompression(1, c, u)` — format 1, the zlib
format — does not replace the active byte source: the wrapper is returned
bit-for-bit unchanged, still holding the original file stream at position 2
(an installed decompression adapter would be a fresh memory stream at
position 0). -/
theorem c1_counterexample :
    FW.setCompression envW 1 4 8 fwC1 = fwC1 ∧ fwC1.dec.pos ≠ 0 := by
  constructor
  · rfl
  · decide

/-- Claim C1 as amended: `set_compression(format, compressed, uncompressed)`
replaces the active byte source by an LZ4 adapter — a fresh, unfailed memory
stream at position 0 of length exactly `uncompressed` — when format = 2, and
leaves the byte source unchanged for every other format value, including
format = 1 (zlib is not implemented; the source's comment says so). -/
theorem c1_amended (env : Env) (format c u : Nat) (fw : FW) :
    (format ≠ 2 → FW.setCompression env format c u fw = fw) ∧
    (format = 2 →
      (FW.setCompression env format c u fw).dec.pos = 0 ∧
      (FW.setCompression env format c u fw).dec.failed = false ∧
      (FW.setCompression env format c u fw).dec.data.length = u ∧
      (FW.setCompression env format c u fw).hasFieldMarkers = fw.hasFieldMarkers ∧
      (FW.setCompression env format c u fw).bzString = fw.bzString) := by
  constructor
  · intro hne
    simp [FW.setCompression, hne]
  · intro he
    subst he
    refine ⟨by simp [FW.setCompression], by simp [FW.setCompression], ?_,
      by simp [FW.setCompression], by simp [FW.setCompression]⟩
    simp [FW.setCompression]

/-- Claim C1 amended, witness at format 1 and format 2. -/
theorem c1_amended_witness :
    FW.setCompression envW 1 4 8 fwC1 = fwC1 ∧
      (FW.setCompression envW 2 4 8 fwC1).dec.pos = 0 ∧
      (FW.setCompression envW 2 4 8 fwC1).dec.data.length = 8 :=
  ⟨(c1_amended envW 1 4 8 fwC1).1 (by decide),
   ((c1_amended envW 2 4 8 fwC1).2 rfl).1,
   ((c1_amended envW 2 4 8 fwC1).2 rfl).2.2.1⟩

/-- A two-byte stream for exhibiting the raw-read failure message. -/
def fwC5 : FW :=
  { dec := { data := [7, 7], pos := 0, failed := false },
    hasFieldMarkers := false, bzString := false }

/-- Claim C5, the code's actual behaviour at the failing input: a raw read of
4 bytes from a 2-byte stream clears the source, seeks to its end (offset 2)
and throws — but the message carries a stray `"xyz "` debug prefix, unlike
the skip and typed-read paths of the same revision, which use exactly the
claimed format. -/
theorem c5_bug :
    FW.readRaw fwC5 4 =
      .error (.runtime "xyz unexpected end of file at \"2\" (read of \"4\" bytes)") ∧
    typedReadMsg 2 4 = "unexpected end of file at \"2\" (read of \"4\" bytes)" ∧
    skipMsg 2 4 = "unexpected end of file at \"2\" (skip of \"4\" bytes)" ∧
    rawReadMsg 2 4 ≠ typedReadMsg 2 4 := by
  refine ⟨by rfl, by rfl, by rfl, by decide⟩

/-- Claim C7: the Oblivion playtime synthesis.  `readOblivionCore` stores
`oblivionPlaytimeStr` of the decoded f32 gameDays field — the
`"{floor(days)} days, {int(days*24) % 24} hours"` formula with integer
truncation — and, through full parses of the Oblivion fixture, the three
claimed instances hold: 3.5 ↦ "3 days, 12 hours", 0.0 ↦ "0 days, 0 hours",
48.99 ↦ "48 days, 23 hours" (the f32 bit patterns 0x40600000, 0x00000000 and
0x4243F5C3, little-endian in the file). -/
theorem c7_playtime :
    (gamebryoParse envW (obvFile [0x00, 0x00, 0x60, 0x40]) true).map Game.playtime
        = .ok "3 days, 12 hours" ∧
    (gamebryoParse envW (obvFile [0x00, 0x00, 0x00, 0x00]) true).map Game.playtime
        = .ok "0 days, 0 hours" ∧
    (gamebryoParse envW (obvFile [0xC3, 0xF5, 0x43, 0x42]) true).map Game.playtime
        = .ok "48 days, 23 hours" := by
  refine ⟨by rfl, by rfl, by rfl⟩

theorem seekTo_data (d : Decoder) (off : Nat) : ((d.seekTo off).1).data = d.data := by
  unfold Decoder.seekTo
  split
  · rfl
  · split <;> rfl

/-- A header probe leaves the stream's backing data unchanged (it only moves
the cursor and possibly sets the fail flag). -/
theorem headerProbe_data (magic : List Byte) (d : Decoder) :
    ((headerProbe magic d).2).data = d.data := by
  unfold headerProbe
  rcases hr : ((d.seekTo 0).1).readBytes magic.length with ⟨buf, d2, ok⟩
  have hd2 := readBytes_data_eq hr
  simp only [hr]
  rw [hd2, seekTo_data]

theorem seekTo_zero (d : Decoder) :
    (d.seekTo 0).1 = if d.failed then d else { d with pos := 0 } := by
  by_cases hf : d.failed <;> simp [Decoder.seekTo, hf]

theorem readBytes_buf {d : Decoder} {n : Nat} {buf : List Byte} {d' : Decoder}
    {ok : Bool} (h : d.readBytes n = (buf, d', ok)) :
    buf = if d.failed then [] else (d.data.drop d.pos).take n := by
  unfold Decoder.readBytes at h
  split at h
  · injection h with h1 h2
    simp [*]
  · split at h
    · injection h with h1 h2
      simp [*]
    · injection h with h1 h2
      simp [*]

/-- A header probe against a magic that is NUL-free and not a take-prefix of
the stream's data reports no match: when enough bytes are present the
comparison fails outright; when the file is shorter than the magic, or the
stream has already failed, the zero-filled remainder of the probe buffer
cannot occur in the NUL-free magic. -/
theorem headerProbe_not_matched {magic : List Byte} {d : Decoder}
    (h0 : (0 : Byte) ∉ magic) (hne : magic ≠ [])
    (hpre : d.data.take magic.length ≠ magic) :
    (headerProbe magic d).1 = false := by
  unfold headerProbe
  rcases hr : ((d.seekTo 0).1).readBytes magic.length with ⟨buf, d2, ok⟩
  simp only [decide_eq_false_iff_not]
  intro heq
  have hbuf := readBytes_buf hr
  rw [seekTo_zero] at hbuf
  by_cases hf : d.failed
  · -- failed stream: nothing is read, the whole probe buffer is zeros
    rw [if_pos hf, if_pos hf] at hbuf
    subst hbuf
    have hlen : 0 < magic.length := List.length_pos.mpr hne
    apply h0
    rw [← heq]
    simp only [List.nil_append]
    exact List.mem_replicate.mpr ⟨by simp only [List.length_nil, Nat.sub_zero]; omega, rfl⟩
  · rw [if_neg hf, if_neg hf] at hbuf
    simp only [List.drop_zero] at hbuf
    by_cases hlen : buf.length = magic.length
    · -- a full-width read: the probe buffer is `take` of the data
      have hz : magic.length - buf.length = 0 := by omega
      rw [hz] at heq
      simp only [List.replicate, List.append_nil] at heq
      exact hpre (hbuf ▸ heq)
    · -- short read: the zero padding is non-empty
      have hle : buf.length ≤ magic.length := by
        have hlen2 := congrArg List.length heq
        simp only [List.length_append, List.length_replicate] at hlen2
        omega
      apply h0
      rw [← heq]
      refine List.mem_append.mpr (Or.inr (List.mem_replicate.mpr ⟨by omega, rfl⟩))

/-- The probe loop over entries none of whose magics match: no reader runs,
the match count and game are unchanged, and the stream keeps its data. -/
theorem ctorLoop_no_match (env : Env) (quick : Bool) :
    ∀ (ps : List (List Byte × ReadFn)) (count : Nat) (g : Game) (fw : FW),
    (∀ pr ∈ ps, (0 : Byte) ∉ pr.1 ∧ pr.1 ≠ [] ∧ fw.dec.data.take pr.1.length ≠ pr.1) →
    ∃ fw', ctorLoop env quick ps count g fw = .ok (count, g, fw') ∧
      fw'.dec.data = fw.dec.data := by
  intro ps
  induction ps with
  | nil => exact fun count g fw _ => ⟨fw, rfl, rfl⟩
  | cons pr rest ih =>
    intro count g fw h
    obtain ⟨magic, rd⟩ := pr
    obtain ⟨h0, hne, hpre⟩ := h (magic, rd) (List.mem_cons_self _ _)
    have hfalse := headerProbe_not_matched h0 hne hpre
    have hdata := headerProbe_data magic fw.dec
    obtain ⟨fw', hloop, hdata'⟩ :=
      ih count g { fw with dec := (headerProbe magic fw.dec).2 } (by
        intro pr2 hpr2
        obtain ⟨a0, ane, apre⟩ := h pr2 (List.mem_cons_of_mem _ hpr2)
        exact ⟨a0, ane, by simpa [hdata] using apre⟩)
    refine ⟨fw', ?_, by simpa [hdata] using hdata'⟩
    simp only [ctorLoop, hfalse]
    simpa using hloop

/-- Claim C10: a file shorter than every magic (fewer than 11 bytes), or one
whose initial bytes match none of the four magic strings, makes the
constructor throw exactly the `"invalid file header"` error — never a
truncation error: the failed reads inside the `header` probes are silently
swallowed and only make the comparisons fail. -/
theorem c10_invalid_header (data : List Byte)
    (h : data.length < 11 ∨
      ∀ m ∈ [magicTES4, magicTESV, magicFO3, magicFO4], data.take m.length ≠ m)
    (env : Env) (quick : Bool) :
    gamebryoParse env data quick = .error .invalidHeader := by
  have hm : ∀ m ∈ [magicTES4, magicTESV, magicFO3, magicFO4],
      data.take m.length ≠ m := by
    rcases h with hlt | hm
    · intro m hmem heq
      have hlen : 11 ≤ m.length := by
        simp only [List.mem_cons, List.not_mem_nil, or_false] at hmem
        rcases hmem with rfl | rfl | rfl | rfl <;> decide
      have := congrArg List.length heq
      simp only [List.length_take] at this
      omega
    · exact hm
  obtain ⟨fw', hloop, -⟩ := ctorLoop_no_match env quick formatTable 0 game0
    { dec := { data := data, pos := 0, failed := false },
      hasFieldMarkers := false, bzString := false } (by
      intro pr hpr
      simp only [formatTable, List.mem_cons, List.not_mem_nil, or_false] at hpr
      rcases hpr with rfl | rfl | rfl | rfl
      · exact ⟨by decide, by decide, hm magicTES4 (by simp)⟩
      · exact ⟨by decide, by decide, hm magicTESV (by simp)⟩
      · exact ⟨by decide, by decide, hm magicFO3 (by simp)⟩
      · exact ⟨by decide, by decide, hm magicFO4 (by simp)⟩)
  unfold gamebryoParse
  rw [hloop]
  rfl

/-- Claim C10, witness: a three-byte file yields exactly the invalid-header
error. -/
theorem c10_invalid_header_witness :
    gamebryoParse envW [1, 2, 3] true = .error .invalidHeader :=
  c10_invalid_header [1, 2, 3] (Or.inl (by decide)) envW true

theorem readLE_ok_nomarker {fw : FW} {n v : Nat} {fw' : FW}
    (hm : fw.hasFieldMarkers = false) (h : fw.readLE n = .ok (v, fw')) :
    fw' = { fw with dec := { fw.dec with pos := fw.dec.pos + n } } ∧
      v = leVal ((fw.dec.data.drop fw.dec.pos).take n) := by
  simp only [FW.readLE] at h
  rcases hr : fw.dec.readBytes n with ⟨buf, d, ok⟩
  rw [hr] at h
  cases ok with
  | false => simp at h
  | true =>
    obtain ⟨hfail, hd, hbuf, hlen⟩ := readBytes_ok_spec hr
    dsimp only [] at h
    rw [if_pos rfl] at h
    rw [if_neg (by simp [hm])] at h
    cases h
    subst hd
    subst hbuf
    exact ⟨rfl, rfl⟩

/-- The common prefix of the Skyrim counterexample fixtures: magic, header
size skip, version 9, save number 3, empty name, level 10, empty location,
empty playtime, empty race, gender skip, experience skip, FILETIME 0.
Its length is 55, so the image section starts at offset 55. -/
def skPrefix : List Byte :=
  asciiBytes "TESV_SAVEGAME" ++ leBytes 4 100 ++ leBytes 4 9 ++ leBytes 4 3
    ++ leBytes 2 0 ++ leBytes 4 10 ++ leBytes 2 0 ++ leBytes 2 0
    ++ leBytes 2 0 ++ leBytes 2 0 ++ leBytes 8 0 ++ leBytes 8 0

/-- A Skyrim (original format) file whose screenshot header declares
width = 3000, height = 1; the width field sits at offset 55. -/
def skC6File : List Byte := skPrefix ++ leBytes 4 3000 ++ leBytes 4 1

/-- Claim C6, counterexample: a full-mode parse of a file with width = 3000
fails with the DataInvalid error `"invalid width"`, but the offset recorded
in that error is 63 — the stream position after the width and height fields
were read — not 55, the byte position of the width field itself. -/
theorem c6_counterexample :
    gamebryoParse envW skC6File false = .error (.dataInvalid "invalid width" 63) ∧
      (skC6File.drop 55).take 4 = leBytes 4 3000 ∧ (63 : Nat) ≠ 55 := by
  refine ⟨by rfl, by rfl, by decide⟩

/-- Claim C6 as amended: a width of 2000 or more makes `readImage` fail with
the DataInvalid error `"invalid width"`, whose recorded offset is the current
stream position when the check runs — for the overload that reads its own
dimensions, the position just after the width and height fields, i.e. the
width field's position plus 8. -/
theorem c6_amended (env : Env) (alpha : Bool) (g : Game) (fw : FW)
    {w hgt : Nat} {fw1 fw2 : FW}
    (hm : fw.hasFieldMarkers = false)
    (h1 : fw.readLE 4 = .ok (w, fw1))
    (h2 : fw1.readLE 4 = .ok (hgt, fw2))
    (hw : 2000 ≤ w) :
    FW.readImage0 env alpha g fw =
      .error (.dataInvalid "invalid width" (fw.dec.pos + 8)) := by
  obtain ⟨hfw1, -⟩ := readLE_ok_nomarker hm h1
  have hm1 : fw1.hasFieldMarkers = false := by rw [hfw1]; exact hm
  obtain ⟨hfw2, -⟩ := readLE_ok_nomarker hm1 h2
  simp only [FW.readImage0, h1, h2, bind, Except.bind]
  simp only [FW.readImageWH, FW.sanityCheck, decide_eq_false (by omega : ¬ w < 2000),
    Bool.false_eq_true, if_false, bind, Except.bind]
  rw [hfw2, hfw1]
  rfl

/-- A wrapper holding just the bad image header, for the C6 witness. -/
def fwC6 : FW :=
  { dec := { data := leBytes 4 3000 ++ leBytes 4 1, pos := 0, failed := false },
    hasFieldMarkers := false, bzString := false }

/-- Claim C6 amended, witness. -/
theorem c6_amended_witness :
    FW.readImage0 envW false game0 fwC6 =
      .error (.dataInvalid "invalid width" 8) :=
  c6_amended envW false game0 fwC6 rfl rfl rfl (by decide)

/-- An environment in which allocating the 3-byte screenshot buffer throws
`std::bad_alloc`. -/
def envC4 : Env := { envW with allocFails := fun n => n == 3 }

/-- A Skyrim (original format) full-mode fixture whose 1×1 screenshot buffer
allocation will fail: after the image header the file immediately continues
with form version 0x4d, plugin info size, and a one-entry plugin list — the
bytes the parser reads next precisely because the failed `readImage` returned
without consuming anything. -/
def skC4File : List Byte :=
  skPrefix ++ leBytes 4 1 ++ leBytes 4 1
    ++ [0x4d] ++ leBytes 4 0 ++ [1] ++ leBytes 2 1 ++ [65]

/-- The summary produced by the allocation-failure parse. -/
def c4g : Game := (gamebryoParse envC4 skC4File false).toOption.getD game0

/-- Claim C4, counterexample: a parse in which the screenshot buffer
allocation fails is NOT aborted — `readImage` signals the error through the
binding layer (`NBIND_ERR("Out of memory")`) and returns; the parse continues
and produces a summary (with an empty screenshot and the plugin list read
from the unconsumed bytes). -/
theorem c4_counterexample :
    gamebryoParse envC4 skC4File false = .ok c4g ∧ c4g.oom = true ∧
      c4g.screenshot = [] ∧ c4g.plugins = ["A"] := by
  refine ⟨by rfl, by rfl, by rfl, by rfl⟩

/-- Claim C4 as amended: when allocating the `width·height·bpp` screenshot
buffer fails, `readImage` records the out-of-memory signal and returns with
the game state otherwise untouched and the stream position unchanged; the
parse is not aborted and no error is thrown. -/
theorem c4_amended (env : Env) (w hgt : Nat) (alpha : Bool) (g : Game) (fw : FW)
    (hw : w < 2000) (hh : hgt < 2000)
    (ha : env.allocFails (w * hgt * (if alpha then 4 else 3)) = true) :
    FW.readImageWH env w hgt alpha g fw = .ok ({ g with oom := true }, fw) := by
  cases alpha <;> simp_all [FW.readImageWH, FW.sanityCheck] <;> rfl

/-- An empty-stream wrapper for the C4 witness. -/
def fwC4 : FW :=
  { dec := { data := [], pos := 0, failed := false },
    hasFieldMarkers := false, bzString := false }

/-- Claim C4 amended, witness. -/
theorem c4_amended_witness :
    FW.readImageWH envC4 1 1 false game0 fwC4 = .ok ({ game0 with oom := true }, fwC4) :=
  c4_amended envC4 1 1 false game0 fwC4 (by decide) (by decide) (by rfl)

theorem except_bind_ok {α β : Type} {e : Except GErr α} {k : α → Except GErr β}
    {r : β} (h : e >>= k = .ok r) : ∃ a, e = .ok a ∧ k a = .ok r := by
  cases e with
  | error err => simp [Bind.bind, Except.bind] at h
  | ok a => exact ⟨a, rfl, by simpa [Bind.bind, Except.bind] using h⟩

theorem sanityCheck_ok {fw : FW} {c : Bool} {msg : String} {u : Unit}
    (h : fw.sanityCheck c msg = .ok u) : c = true := by
  unfold FW.sanityCheck at h
  split at h
  · assumption
  · cases h

theorem readRaw_ok_len {fw : FW} {n : Nat} {buf : List Byte} {fw' : FW}
    (h : fw.readRaw n = .ok (buf, fw')) : buf.length = n := by
  simp only [FW.readRaw] at h
  rcases hr : fw.dec.readBytes n with ⟨b, d, ok⟩
  rw [hr] at h
  cases ok with
  | false => simp at h
  | true =>
    obtain ⟨-, -, -, hlen⟩ := readBytes_ok_spec hr
    dsimp only [] at h
    rw [if_pos rfl] at h
    cases h
    exact hlen

theorem expandRGB_length : ∀ (k : Nat) (l : List Byte), l.length = 3 * k →
    (expandRGB l).length = 4 * k := by
  intro k
  induction k with
  | zero =>
    intro l hl
    have : l = [] := List.eq_nil_of_length_eq_zero (by omega)
    subst this
    rfl
  | succ m ih =>
    intro l hl
    match l, hl with
    | a :: b :: c :: rest, hl =>
      have hrest : rest.length = 3 * m := by
        simp only [List.length_cons] at hl
        omega
      simp only [expandRGB, List.length_cons, ih rest hrest]
      omega

/-- The screenshot invariant of claim C8. -/
def ShotOK (g : Game) : Prop :=
  g.screenshot.length = 4 * g.dimW * g.dimH ∨ g.screenshot = []

/-- The plugin-name-length invariant of claim C9. -/
def PluginsOK (g : Game) : Prop :=
  ∀ p ∈ g.plugins, p.length ≤ 256

/-- `readImage(width, height, alpha)` leaves the plugin list alone, and its
result always satisfies the screenshot invariant: either the allocation
failed (fields untouched but `oom`) or a `4·width·height` RGBA buffer is
stored together with the dimensions. -/
theorem readImageWH_spec {env : Env} {w hgt : Nat} {alpha : Bool} {g g' : Game}
    {fw fw' : FW} (h : FW.readImageWH env w hgt alpha g fw = .ok (g', fw')) :
    g'.plugins = g.plugins ∧ g'.pcName = g.pcName ∧ g'.pcLevel = g.pcLevel ∧
    g'.pcLocation = g.pcLocation ∧ g'.playtime = g.playtime ∧
    g'.saveNumber = g.saveNumber ∧ g'.creationTime = g.creationTime ∧
    (ShotOK g → ShotOK g') := by
  cases alpha with
  | true =>
    simp only [FW.readImageWH, bind, Except.bind] at h
    rcases hs1 : FW.sanityCheck fw (decide (w < 2000)) "invalid width" with e1 | u1 <;>
      rw [hs1] at h
    · cases h
    rcases hs2 : FW.sanityCheck fw (decide (hgt < 2000)) "invalid height" with e2 | u2 <;>
      rw [hs2] at h
    · cases h
    dsimp only [] at h
    try simp only [Bool.false_eq_true, if_true, if_false] at h
    by_cases ha : env.allocFails (w * hgt * 4) = true
    · rw [if_pos ha] at h
      cases h
      exact ⟨rfl, rfl, rfl, rfl, rfl, rfl, rfl, fun hg => hg⟩
    · rw [if_neg ha] at h
      rcases hrr : fw.readRaw (w * hgt * 4) with e3 | ⟨buf, fw2⟩ <;> rw [hrr] at h
      · cases h
      have hblen := readRaw_ok_len hrr
      cases h
      refine ⟨rfl, rfl, rfl, rfl, rfl, rfl, rfl, fun _ => Or.inl ?_⟩
      simp only [ShotOK] at *
      rw [hblen]
      ring
  | false =>
    simp only [FW.readImageWH, bind, Except.bind] at h
    rcases hs1 : FW.sanityCheck fw (decide (w < 2000)) "invalid width" with e1 | u1 <;>
      rw [hs1] at h
    · cases h
    rcases hs2 : FW.sanityCheck fw (decide (hgt < 2000)) "invalid height" with e2 | u2 <;>
      rw [hs2] at h
    · cases h
    dsimp only [] at h
    try simp only [Bool.false_eq_true, if_true, if_false] at h
    by_cases ha : env.allocFails (w * hgt * 3) = true
    · rw [if_pos ha] at h
      cases h
      exact ⟨rfl, rfl, rfl, rfl, rfl, rfl, rfl, fun hg => hg⟩
    · rw [if_neg ha] at h
      rcases hrr : fw.readRaw (w * hgt * 3) with e3 | ⟨buf, fw2⟩ <;> rw [hrr] at h
      · cases h
      have hblen := readRaw_ok_len hrr
      cases h
      refine ⟨rfl, rfl, rfl, rfl, rfl, rfl, rfl, fun _ => Or.inl ?_⟩
      simp only [ShotOK] at *
      rw [expandRGB_length (w * hgt) buf (by rw [hblen]; ring)]
      ring

/-- `readImage(alpha)` — the dimension-reading overload — has the same Game
effects as `readImage(width, height, alpha)`. -/
theorem readImage0_spec {env : Env} {alpha : Bool} {g g' : Game} {fw fw' : FW}
    (h : FW.readImage0 env alpha g fw = .ok (g', fw')) :
    g'.plugins = g.plugins ∧ g'.pcName = g.pcName ∧ g'.pcLevel = g.pcLevel ∧
    g'.pcLocation = g.pcLocation ∧ g'.playtime = g.playtime ∧
    g'.saveNumber = g.saveNumber ∧ g'.creationTime = g.creationTime ∧
    (ShotOK g → ShotOK g') := by
  simp only [FW.readImage0] at h
  obtain ⟨v1, h1, h⟩ := except_bind_ok h
  obtain ⟨w, fw1⟩ := v1
  dsimp only [] at h
  obtain ⟨v2, h2, h⟩ := except_bind_ok h
  obtain ⟨hgt, fw2⟩ := v2
  dsimp only [] at h
  exact readImageWH_spec h

/-- One `readPlugins` loop appends length-checked names and touches nothing
else in the game state. -/
theorem readPluginsLoop_spec (bS : Bool) : ∀ (k : Nat) (g : Game) (fw : FW)
    {g' : Game} {fw' : FW},
    FW.readPluginsLoop bS k g fw = .ok (g', fw') →
    ∃ extra, g' = { g with plugins := g.plugins ++ extra } ∧
      ∀ p ∈ extra, String.length p ≤ 256 := by
  intro k
  induction k with
  | zero =>
    intro g fw g' fw' h
    cases h
    exact ⟨[], by simp, by simp⟩
  | succ i ih =>
    intro g fw g' fw' h
    simp only [FW.readPluginsLoop, bind, Except.bind] at h
    cases bS with
    | true =>
      rw [if_pos rfl] at h
      rcases hn : fw.readBString with e | v <;> rw [hn] at h
      · cases h
      obtain ⟨name, fw1⟩ := v
      dsimp only [] at h
      rcases hs : fw1.sanityCheck (decide (name.length ≤ 256)) "Invalid plugin name"
        with e | u <;> rw [hs] at h
      · cases h
      dsimp only [] at h
      obtain ⟨extra, hg, hex⟩ := ih _ _ h
      refine ⟨name :: extra, ?_, ?_⟩
      · rw [hg]
        simp
      · intro p hp
        rcases List.mem_cons.mp hp with rfl | hp
        · exact of_decide_eq_true (sanityCheck_ok hs)
        · exact hex p hp
    | false =>
      rw [if_neg (by simp)] at h
      rcases hn : fw.readStr with e | v <;> rw [hn] at h
      · cases h
      obtain ⟨name, fw1⟩ := v
      dsimp only [] at h
      rcases hs : fw1.sanityCheck (decide (name.length ≤ 256)) "Invalid plugin name"
        with e | u <;> rw [hs] at h
      · cases h
      dsimp only [] at h
      obtain ⟨extra, hg, hex⟩ := ih _ _ h
      refine ⟨name :: extra, ?_, ?_⟩
      · rw [hg]
        simp
      · intro p hp
        rcases List.mem_cons.mp hp with rfl | hp
        · exact of_decide_eq_true (sanityCheck_ok hs)
        · exact hex p hp

/-- Same for the `readLightPlugins` loop. -/
theorem readLightPluginsLoop_spec : ∀ (k : Nat) (g : Game) (fw : FW)
    {g' : Game} {fw' : FW},
    FW.readLightPluginsLoop k g fw = .ok (g', fw') →
    ∃ extra, g' = { g with plugins := g.plugins ++ extra } ∧
      ∀ p ∈ extra, String.length p ≤ 256 := by
  intro k
  induction k with
  | zero =>
    intro g fw g' fw' h
    cases h
    exact ⟨[], by simp, by simp⟩
  | succ i ih =>
    intro g fw g' fw' h
    simp only [FW.readLightPluginsLoop, bind, Except.bind] at h
    rcases hn : fw.readStr with e | v <;> rw [hn] at h
    · cases h
    obtain ⟨name, fw1⟩ := v
    dsimp only [] at h
    rcases hs : fw1.sanityCheck (decide (name.length ≤ 256)) "Invalid light plugin name"
      with e | u <;> rw [hs] at h
    · cases h
    dsimp only [] at h
    obtain ⟨extra, hg, hex⟩ := ih _ _ h
    refine ⟨name :: extra, ?_, ?_⟩
    · rw [hg]
      simp
    · intro p hp
      rcases List.mem_cons.mp hp with rfl | hp
      · exact of_decide_eq_true (sanityCheck_ok hs)
      · exact hex p hp

/-- `readPlugins` appends length-checked names and touches nothing else. -/
theorem readPlugins_spec {bS : Bool} {g g' : Game} {fw fw' : FW}
    (h : FW.readPlugins bS g fw = .ok (g', fw')) :
    ∃ extra, g' = { g with plugins := g.plugins ++ extra } ∧
      ∀ p ∈ extra, String.length p ≤ 256 := by
  simp only [FW.readPlugins] at h
  obtain ⟨v, hv, h⟩ := except_bind_ok h
  obtain ⟨count, fw1⟩ := v
  dsimp only [] at h
  exact readPluginsLoop_spec bS count g fw1 h

/-- `readLightPlugins` appends length-checked names and touches nothing else. -/
theorem readLightPlugins_spec {g g' : Game} {fw fw' : FW}
    (h : FW.readLightPlugins g fw = .ok (g', fw')) :
    ∃ extra, g' = { g with plugins := g.plugins ++ extra } ∧
      ∀ p ∈ extra, String.length p ≤ 256 := by
  simp only [FW.readLightPlugins] at h
  obtain ⟨v, hv, h⟩ := except_bind_ok h
  obtain ⟨count, fw1⟩ := v
  dsimp only [] at h
  exact readLightPluginsLoop_spec count g fw1 h

/-- `readOblivion`'s pre-quick part sets only summary text/number fields:
plugins, screenshot state and the oom flag pass through. -/
theorem readOblivionCore_spec {env : Env} {g g' : Game} {fw fw' : FW}
    (h : readOblivionCore env g fw = .ok (g', fw')) :
    g'.plugins = g.plugins ∧ g'.dimW = g.dimW ∧ g'.dimH = g.dimH ∧
    g'.screenshot = g.screenshot ∧ g'.oom = g.oom := by
  simp only [readOblivionCore, bind, Except.bind] at h
  repeat
    (try dsimp only [] at h
     split at h
     · exact Except.noConfusion h)
  try dsimp only [] at h
  cases h
  exact ⟨rfl, rfl, rfl, rfl, rfl⟩

/-- The effects the post-quick tail of a reader may have: the six summary
fields set before the quick check are untouched, and the two output
invariants are transported. -/
def RestEffects (g g' : Game) : Prop :=
  g'.pcName = g.pcName ∧ g'.pcLevel = g.pcLevel ∧ g'.pcLocation = g.pcLocation ∧
  g'.playtime = g.playtime ∧ g'.saveNumber = g.saveNumber ∧
  g'.creationTime = g.creationTime ∧
  (ShotOK g → ShotOK g') ∧ (PluginsOK g → PluginsOK g')

theorem RestEffects.refl (g : Game) : RestEffects g g :=
  ⟨rfl, rfl, rfl, rfl, rfl, rfl, id, id⟩

theorem RestEffects.comp {g1 g2 g3 : Game} (h1 : RestEffects g1 g2)
    (h2 : RestEffects g2 g3) : RestEffects g1 g3 := by
  obtain ⟨a1, b1, c1, d1, e1, f1, s1, p1⟩ := h1
  obtain ⟨a2, b2, c2, d2, e2, f2, s2, p2⟩ := h2
  exact ⟨a2.trans a1, b2.trans b1, c2.trans c1, d2.trans d1, e2.trans e1,
    f2.trans f1, fun hg => s2 (s1 hg), fun hg => p2 (p1 hg)⟩

theorem RestEffects.of_image {env : Env} {w hgt : Nat} {alpha : Bool}
    {g g' : Game} {fw fw' : FW}
    (h : FW.readImageWH env w hgt alpha g fw = .ok (g', fw')) :
    RestEffects g g' := by
  obtain ⟨hpl, h1, h2, h3, h4, h5, h6, hshot⟩ := readImageWH_spec h
  exact ⟨h1, h2, h3, h4, h5, h6, hshot, fun hg => by
    intro p hp
    rw [hpl] at hp
    exact hg p hp⟩

theorem RestEffects.of_image0 {env : Env} {alpha : Bool} {g g' : Game}
    {fw fw' : FW} (h : FW.readImage0 env alpha g fw = .ok (g', fw')) :
    RestEffects g g' := by
  obtain ⟨hpl, h1, h2, h3, h4, h5, h6, hshot⟩ := readImage0_spec h
  exact ⟨h1, h2, h3, h4, h5, h6, hshot, fun hg => by
    intro p hp
    rw [hpl] at hp
    exact hg p hp⟩

theorem RestEffects.of_append {g : Game} {extra : List String}
    (hex : ∀ p ∈ extra, String.length p ≤ 256) :
    RestEffects g { g with plugins := g.plugins ++ extra } := by
  refine ⟨rfl, rfl, rfl, rfl, rfl, rfl, fun hg => hg, fun hg p hp => ?_⟩
  simp only [List.mem_append] at hp
  rcases hp with hp | hp
  · exact hg p hp
  · exact hex p hp

theorem RestEffects.of_plugins {bS : Bool} {g g' : Game} {fw fw' : FW}
    (h : FW.readPlugins bS g fw = .ok (g', fw')) : RestEffects g g' := by
  obtain ⟨extra, rfl, hex⟩ := readPlugins_spec h
  exact RestEffects.of_append hex

theorem RestEffects.of_lightPlugins {g g' : Game} {fw fw' : FW}
    (h : FW.readLightPlugins g fw = .ok (g', fw')) : RestEffects g g' := by
  obtain ⟨extra, rfl, hex⟩ := readLightPlugins_spec h
  exact RestEffects.of_append hex

/-- The `!m_QuickRead` tail of `readOblivion` preserves the six summary
fields and the invariants. -/
theorem readOblivionRest_spec {env : Env} {g g' : Game} {fw fw' : FW}
    (h : readOblivionRest env g fw = .ok (g', fw')) : RestEffects g g' := by
  simp only [readOblivionRest, bind, Except.bind] at h
  rcases h1 : fw.skipBytes 4 with e | fw1 <;> rw [h1] at h
  · cases h
  dsimp only [] at h
  rcases h2 : FW.readImage0 env false g fw1 with e | v <;> rw [h2] at h
  · cases h
  obtain ⟨g1, fw2⟩ := v
  dsimp only [] at h
  exact (RestEffects.of_image0 h2).comp (RestEffects.of_plugins h)

/-- The image stage of `readSkyrim`'s tail preserves the six summary fields
and the invariants. -/
theorem readSkyrimImageStage_spec {env : Env} {version : Nat} {g g' : Game}
    {fw fw' : FW} (h : readSkyrimImageStage env version g fw = .ok (g', fw')) :
    RestEffects g g' := by
  unfold readSkyrimImageStage at h
  split at h
  · exact RestEffects.of_image0 h
  · simp only [bind, Except.bind] at h
    rcases k1 : fw.readLE 4 with e | v1 <;> rw [k1] at h
    · cases h
    obtain ⟨w1, fwa⟩ := v1
    dsimp only [] at h
    rcases k2 : fwa.readLE 4 with e | v2 <;> rw [k2] at h
    · cases h
    obtain ⟨h1, fwb⟩ := v2
    dsimp only [] at h
    rcases k3 : fwb.readLE 2 with e | v3 <;> rw [k3] at h
    · cases h
    obtain ⟨cf, fwc⟩ := v3
    dsimp only [] at h
    rcases k4 : FW.readImageWH env w1 h1 true g fwc with e | v4 <;> rw [k4] at h
    · cases h
    obtain ⟨gi, fwd⟩ := v4
    dsimp only [] at h
    rcases k5 : fwd.readLE 4 with e | v5 <;> rw [k5] at h
    · cases h
    obtain ⟨u1, fwe⟩ := v5
    dsimp only [] at h
    rcases k6 : fwe.readLE 4 with e | v6 <;> rw [k6] at h
    · cases h
    obtain ⟨c1, fwf⟩ := v6
    dsimp only [] at h
    cases h
    exact RestEffects.of_image k4

/-- The plugin stage of `readSkyrim`'s tail preserves the six summary fields
and the invariants. -/
theorem readSkyrimPluginStage_spec {env : Env} {g g' : Game} {fw fw' : FW}
    (h : readSkyrimPluginStage env g fw = .ok (g', fw')) : RestEffects g g' := by
  simp only [readSkyrimPluginStage, bind, Except.bind] at h
  rcases k1 : FW.readLE fw 1 with e | v1 <;> rw [k1] at h
  · cases h
  obtain ⟨fv, fwa⟩ := v1
  dsimp only [] at h
  rcases k2 : fwa.skipBytes 4 with e | fwb <;> rw [k2] at h
  · cases h
  dsimp only [] at h
  rcases k3 : FW.readPlugins false g fwb with e | v3 <;> rw [k3] at h
  · cases h
  obtain ⟨g2, fwc⟩ := v3
  dsimp only [] at h
  refine (RestEffects.of_plugins k3).comp ?_
  split at h
  · exact RestEffects.of_lightPlugins h
  · cases h
    exact RestEffects.refl _

/-- The `!m_QuickRead` tail of `readSkyrim` preserves the six summary fields
and the invariants. -/
theorem readSkyrimRest_spec {env : Env} {version : Nat} {g g' : Game}
    {fw fw' : FW} (h : readSkyrimRest env version g fw = .ok (g', fw')) :
    RestEffects g g' := by
  simp only [readSkyrimRest, bind, Except.bind] at h
  rcases k1 : readSkyrimImageStage env version g fw with e | v1 <;> rw [k1] at h
  · cases h
  obtain ⟨g1, fw1⟩ := v1
  dsimp only [] at h
  exact (readSkyrimImageStage_spec k1).comp (readSkyrimPluginStage_spec h)

/-- `readSkyrim`'s pre-quick part sets only summary text/number fields. -/
theorem readSkyrimCore_spec {env : Env} {g g' : Game} {fw fw' : FW} {version : Nat}
    (h : readSkyrimCore env g fw = .ok (version, g', fw')) :
    g'.plugins = g.plugins ∧ g'.dimW = g.dimW ∧ g'.dimH = g.dimH ∧
    g'.screenshot = g.screenshot ∧ g'.oom = g.oom := by
  simp only [readSkyrimCore, bind, Except.bind] at h
  repeat
    (try dsimp only [] at h
     split at h
     · exact Except.noConfusion h)
  try dsimp only [] at h
  cases h
  exact ⟨rfl, rfl, rfl, rfl, rfl⟩

/-- `readFO3`'s pre-quick part sets only summary text/number fields. -/
theorem readFO3Core_spec {env : Env} {g g' : Game} {fw fw' : FW} {w hgt : Nat}
    (h : readFO3Core env g fw = .ok (w, hgt, g', fw')) :
    g'.plugins = g.plugins ∧ g'.dimW = g.dimW ∧ g'.dimH = g.dimH ∧
    g'.screenshot = g.screenshot ∧ g'.oom = g.oom := by
  simp only [readFO3Core, bind, Except.bind] at h
  repeat
    (try dsimp only [] at h
     first
     | (split at h
        · exact Except.noConfusion h)
     | split at h)
  all_goals try dsimp only [] at h
  all_goals (cases h; exact ⟨rfl, rfl, rfl, rfl, rfl⟩)

/-- `readFO4`'s pre-quick part sets only summary text/number fields. -/
theorem readFO4Core_spec {env : Env} {g g' : Game} {fw fw' : FW}
    (h : readFO4Core env g fw = .ok (g', fw')) :
    g'.plugins = g.plugins ∧ g'.dimW = g.dimW ∧ g'.dimH = g.dimH ∧
    g'.screenshot = g.screenshot ∧ g'.oom = g.oom := by
  simp only [readFO4Core, bind, Except.bind] at h
  repeat
    (try dsimp only [] at h
     split at h
     · exact Except.noConfusion h)
  try dsimp only [] at h
  cases h
  exact ⟨rfl, rfl, rfl, rfl, rfl⟩

/-- The `!m_QuickRead` tail of `readFO3` preserves the six summary fields and
the invariants. -/
theorem readFO3Rest_spec {env : Env} {w hgt : Nat} {g g' : Game} {fw fw' : FW}
    (h : readFO3Rest env w hgt g fw = .ok (g', fw')) : RestEffects g g' := by
  simp only [readFO3Rest, bind, Except.bind] at h
  rcases k1 : FW.readImageWH env w hgt false g fw with e | v1 <;> rw [k1] at h
  · cases h
  obtain ⟨g1, fw1⟩ := v1
  dsimp only [] at h
  rcases k2 : fw1.skipBytes 5 with e | fw2 <;> rw [k2] at h
  · cases h
  dsimp only [] at h
  exact (RestEffects.of_image k1).comp (RestEffects.of_plugins h)

/-- The `!m_QuickRead` tail of `readFO4` preserves the six summary fields and
the invariants. -/
theorem readFO4Rest_spec {env : Env} {g g' : Game} {fw fw' : FW}
    (h : readFO4Rest env g fw = .ok (g', fw')) : RestEffects g g' := by
  simp only [readFO4Rest, bind, Except.bind] at h
  rcases k1 : FW.readImage0 env true g fw with e | v1 <;> rw [k1] at h
  · cases h
  obtain ⟨g1, fw1⟩ := v1
  dsimp only [] at h
  rcases k2 : fw1.readLE 1 with e | v2 <;> rw [k2] at h
  · cases h
  obtain ⟨fv, fw2⟩ := v2
  dsimp only [] at h
  rcases k3 : fw2.readStr with e | v3 <;> rw [k3] at h
  · cases h
  obtain ⟨gv, fw3⟩ := v3
  dsimp only [] at h
  rcases k4 : fw3.skipBytes 4 with e | fw4 <;> rw [k4] at h
  · cases h
  dsimp only [] at h
  rcases k5 : FW.readPlugins false g1 fw4 with e | v5 <;> rw [k5] at h
  · cases h
  obtain ⟨g2, fw5⟩ := v5
  dsimp only [] at h
  refine (RestEffects.of_image0 k1).comp ((RestEffects.of_plugins k5).comp ?_)
  split at h
  · exact RestEffects.of_lightPlugins h
  · cases h
    exact RestEffects.refl _

/-- Invariant transport through a reader. -/
def InvEffects (g g' : Game) : Prop :=
  (ShotOK g → ShotOK g') ∧ (PluginsOK g → PluginsOK g')

theorem InvEffects.chain {g1 g2 g3 : Game} (h1 : InvEffects g1 g2)
    (h2 : InvEffects g2 g3) : InvEffects g1 g3 :=
  ⟨fun hg => h2.1 (h1.1 hg), fun hg => h2.2 (h1.2 hg)⟩

theorem InvEffects.of_fields {g g' : Game}
    (h : g'.plugins = g.plugins ∧ g'.dimW = g.dimW ∧ g'.dimH = g.dimH ∧
      g'.screenshot = g.screenshot ∧ g'.oom = g.oom) : InvEffects g g' := by
  obtain ⟨h1, h2, h3, h4, h5⟩ := h
  constructor
  · intro hg
    unfold ShotOK at *
    rw [h1] at *
    rw [h2, h3, h4]
    exact hg
  · intro hg p hp
    rw [h1] at hp
    exact hg p hp

theorem RestEffects.toInv {g g' : Game} (h : RestEffects g g') : InvEffects g g' :=
  ⟨h.2.2.2.2.2.2.1, h.2.2.2.2.2.2.2⟩

/-- Agreement of the six summary fields between two game states. -/
def CoreAgree (a b : Game) : Prop :=
  a.pcName = b.pcName ∧ a.pcLevel = b.pcLevel ∧ a.pcLocation = b.pcLocation ∧
  a.playtime = b.playtime ∧ a.saveNumber = b.saveNumber ∧
  a.creationTime = b.creationTime

theorem CoreAgree.of_rest {a b : Game} (h : RestEffects a b) : CoreAgree a b :=
  ⟨h.1.symm, h.2.1.symm, h.2.2.1.symm, h.2.2.2.1.symm, h.2.2.2.2.1.symm,
   h.2.2.2.2.2.1.symm⟩

/-- `readOblivion` transports the invariants. -/
theorem readOblivion_inv {env : Env} {quick : Bool} {g g' : Game} {fw fw' : FW}
    (h : readOblivion env quick g fw = .ok (g', fw')) : InvEffects g g' := by
  simp only [readOblivion, bind, Except.bind] at h
  rcases hc : readOblivionCore env g fw with e | v <;> rw [hc] at h
  · cases h
  obtain ⟨g1, fw1⟩ := v
  dsimp only [] at h
  have hci := InvEffects.of_fields (readOblivionCore_spec hc)
  cases quick with
  | true =>
    rw [if_pos rfl] at h
    cases h
    exact hci
  | false =>
    rw [if_neg (by simp)] at h
    exact hci.chain (readOblivionRest_spec h).toInv

/-- `readSkyrim` transports the invariants. -/
theorem readSkyrim_inv {env : Env} {quick : Bool} {g g' : Game} {fw fw' : FW}
    (h : readSkyrim env quick g fw = .ok (g', fw')) : InvEffects g g' := by
  simp only [readSkyrim, bind, Except.bind] at h
  rcases hc : readSkyrimCore env g fw with e | v <;> rw [hc] at h
  · cases h
  obtain ⟨version, g1, fw1⟩ := v
  dsimp only [] at h
  have hci := InvEffects.of_fields (readSkyrimCore_spec hc)
  cases quick with
  | true =>
    rw [if_pos rfl] at h
    cases h
    exact hci
  | false =>
    rw [if_neg (by simp)] at h
    exact hci.chain (readSkyrimRest_spec h).toInv

/-- `readFO3` transports the invariants. -/
theorem readFO3_inv {env : Env} {quick : Bool} {g g' : Game} {fw fw' : FW}
    (h : readFO3 env quick g fw = .ok (g', fw')) : InvEffects g g' := by
  simp only [readFO3, bind, Except.bind] at h
  rcases hc : readFO3Core env g fw with e | v <;> rw [hc] at h
  · cases h
  obtain ⟨w, hgt, g1, fw1⟩ := v
  dsimp only [] at h
  have hci := InvEffects.of_fields (readFO3Core_spec hc)
  cases quick with
  | true =>
    rw [if_pos rfl] at h
    cases h
    exact hci
  | false =>
    rw [if_neg (by simp)] at h
    exact hci.chain (readFO3Rest_spec h).toInv

/-- `readFO4` transports the invariants. -/
theorem readFO4_inv {env : Env} {quick : Bool} {g g' : Game} {fw fw' : FW}
    (h : readFO4 env quick g fw = .ok (g', fw')) : InvEffects g g' := by
  simp only [readFO4, bind, Except.bind] at h
  rcases hc : readFO4Core env g fw with e | v <;> rw [hc] at h
  · cases h
  obtain ⟨g1, fw1⟩ := v
  dsimp only [] at h
  have hci := InvEffects.of_fields (readFO4Core_spec hc)
  cases quick with
  | true =>
    rw [if_pos rfl] at h
    cases h
    exact hci
  | false =>
    rw [if_neg (by simp)] at h
    exact hci.chain (readFO4Rest_spec h).toInv

/-- The probe loop transports the invariants, provided every reader in the
table does. -/
theorem ctorLoop_inv (env : Env) (quick : Bool) :
    ∀ (ps : List (List Byte × ReadFn)) (count : Nat) (g : Game) (fw : FW)
      {c' : Nat} {g' : Game} {fw' : FW},
    (∀ pr ∈ ps, ∀ (e2 : Env) (q2 : Bool) (g2 : Game) (fw2 : FW) (g3 : Game)
      (fw3 : FW), pr.2 e2 q2 g2 fw2 = .ok (g3, fw3) → InvEffects g2 g3) →
    ctorLoop env quick ps count g fw = .ok (c', g', fw') → InvEffects g g' := by
  intro ps
  induction ps with
  | nil =>
    intro count g fw c' g' fw' _ h
    cases h
    exact ⟨id, id⟩
  | cons pr rest ih =>
    intro count g fw c' g' fw' hfns h
    obtain ⟨magic, rd⟩ := pr
    simp only [ctorLoop] at h
    by_cases hp : (headerProbe magic fw.dec).1
    · rw [if_pos hp] at h
      rcases hr : rd env quick g { fw with dec := (headerProbe magic fw.dec).2 }
        with e | v <;> rw [hr] at h
      · cases h
      obtain ⟨g2, fw2⟩ := v
      have h1 := hfns (magic, rd) (List.mem_cons_self _ _) env quick g _ g2 fw2 hr
      exact h1.chain (ih (count + 1) g2 fw2
        (fun pr2 hpr2 => hfns pr2 (List.mem_cons_of_mem _ hpr2)) h)
    · rw [if_neg hp] at h
      exact ih count g { fw with dec := (headerProbe magic fw.dec).2 }
        (fun pr2 hpr2 => hfns pr2 (List.mem_cons_of_mem _ hpr2)) h

/-- The creation-time fallback touches only `creationTime`. -/
theorem applyMtimeFallback_fields (env : Env) (g : Game) :
    (applyMtimeFallback env g).plugins = g.plugins ∧
    (applyMtimeFallback env g).dimW = g.dimW ∧
    (applyMtimeFallback env g).dimH = g.dimH ∧
    (applyMtimeFallback env g).screenshot = g.screenshot := by
  unfold applyMtimeFallback
  split
  · rcases env.statMtime with - | t <;> simp
  · exact ⟨rfl, rfl, rfl, rfl⟩

/-- Every reader in the dispatch table transports the invariants. -/
theorem formatTable_inv : ∀ pr ∈ formatTable, ∀ (e2 : Env) (q2 : Bool)
    (g2 : Game) (fw2 : FW) (g3 : Game) (fw3 : FW),
    pr.2 e2 q2 g2 fw2 = .ok (g3, fw3) → InvEffects g2 g3 := by
  intro pr hpr
  simp only [formatTable, List.mem_cons, List.not_mem_nil, or_false] at hpr
  rcases hpr with rfl | rfl | rfl | rfl
  · exact fun e2 q2 g2 fw2 g3 fw3 h => readOblivion_inv h
  · exact fun e2 q2 g2 fw2 g3 fw3 h => readSkyrim_inv h
  · exact fun e2 q2 g2 fw2 g3 fw3 h => readFO3_inv h
  · exact fun e2 q2 g2 fw2 g3 fw3 h => readFO4_inv h

/-- Claim C8: after every successful parse — any format, quick or full — the
screenshot byte buffer has length exactly 4·width·height of the recorded
screenshot dimensions, or is empty. -/
theorem c8_screenshot (env : Env) (data : List Byte) (quick : Bool) (g : Game)
    (h : gamebryoParse env data quick = .ok g) :
    g.screenshot.length = 4 * g.dimW * g.dimH ∨ g.screenshot = [] := by
  unfold gamebryoParse at h
  rcases hl : ctorLoop env quick formatTable 0 game0
      { dec := { data := data, pos := 0, failed := false },
        hasFieldMarkers := false, bzString := false } with e | v <;> rw [hl] at h
  · cases h
  obtain ⟨c, g1, fwx⟩ := v
  dsimp only [] at h
  split at h
  · cases h
  cases h
  have hin : InvEffects game0 g1 := ctorLoop_inv env quick formatTable 0 game0 _
    formatTable_inv hl
  have hshot : ShotOK g1 := hin.1 (Or.inr rfl)
  obtain ⟨-, hw, hh, hs⟩ := applyMtimeFallback_fields env g1
  unfold ShotOK at hshot
  rw [← hw, ← hh, ← hs] at hshot
  exact hshot

/-- A Skyrim fixture with a real 1×1 screenshot and one plugin, parsed in
full mode for the C8 witness. -/
def skC8File : List Byte :=
  skPrefix ++ leBytes 4 1 ++ leBytes 4 1 ++ [9, 9, 9]
    ++ [0x4d] ++ leBytes 4 0 ++ [1] ++ leBytes 2 1 ++ [66]

/-- The summary of the C8 witness parse. -/
def c8g : Game := (gamebryoParse envW skC8File false).toOption.getD game0

/-- Claim C8, witness. -/
theorem c8_screenshot_witness :
    c8g.screenshot.length = 4 * c8g.dimW * c8g.dimH ∨ c8g.screenshot = [] :=
  c8_screenshot envW skC8File false c8g (by rfl)

/-- Claim C9: every plugin name in the summary of a successful parse — in any
of the four formats, appended by readPlugins or readLightPlugins — has length
at most 256 bytes; a longer decoded name raises DataInvalid and aborts the
parse, so no summary ever contains one. -/
theorem c9_plugins (env : Env) (data : List Byte) (quick : Bool) (g : Game)
    (h : gamebryoParse env data quick = .ok g) :
    ∀ p ∈ g.plugins, String.length p ≤ 256 := by
  unfold gamebryoParse at h
  rcases hl : ctorLoop env quick formatTable 0 game0
      { dec := { data := data, pos := 0, failed := false },
        hasFieldMarkers := false, bzString := false } with e | v <;> rw [hl] at h
  · cases h
  obtain ⟨c, g1, fwx⟩ := v
  dsimp only [] at h
  split at h
  · cases h
  cases h
  have hin : InvEffects game0 g1 := ctorLoop_inv env quick formatTable 0 game0 _
    formatTable_inv hl
  have hpl : PluginsOK g1 := hin.2 (by intro p hp; cases hp)
  obtain ⟨hps, -, -, -⟩ := applyMtimeFallback_fields env g1
  intro p hp
  rw [hps] at hp
  exact hpl p hp

/-- A Skyrim fixture with two plugins (one of them empty), parsed in full
mode for the C9 witness. -/
def skC9File : List Byte :=
  skPrefix ++ leBytes 4 1 ++ leBytes 4 1 ++ [9, 9, 9]
    ++ [0x4d] ++ leBytes 4 0 ++ [2] ++ leBytes 2 2 ++ [65, 66] ++ leBytes 2 0

/-- The summary of the C9 witness parse. -/
def c9g : Game := (gamebryoParse envW skC9File false).toOption.getD game0

/-- Claim C9, witness: the concrete parse yields the plugins ["AB", ""] and
the theorem bounds the first of them. -/
theorem c9_plugins_witness :
    c9g.plugins = ["AB", ""] ∧ String.length "AB" ≤ 256 :=
  ⟨by rfl, c9_plugins envW skC9File false c9g (by rfl) "AB" (by decide)⟩

/-- The probe loop's match count never decreases. -/
theorem ctorLoop_count_mono (env : Env) (quick : Bool) :
    ∀ (ps : List (List Byte × ReadFn)) (count : Nat) (g : Game) (fw : FW)
      {c' : Nat} {g' : Game} {fw' : FW},
    ctorLoop env quick ps count g fw = .ok (c', g', fw') → count ≤ c' := by
  intro ps
  induction ps with
  | nil =>
    intro count g fw c' g' fw' h
    cases h
    exact Nat.le_refl _
  | cons pr rest ih =>
    intro count g fw c' g' fw' h
    obtain ⟨magic, rd⟩ := pr
    simp only [ctorLoop] at h
    by_cases hp : (headerProbe magic fw.dec).1
    · rw [if_pos hp] at h
      rcases hr : rd env quick g { fw with dec := (headerProbe magic fw.dec).2 }
        with e | v <;> rw [hr] at h
      · cases h
      obtain ⟨g2, fw2⟩ := v
      exact Nat.le_of_succ_le (ih (count + 1) g2 fw2 h)
    · rw [if_neg hp] at h
      exact ih count g _ h

/-- If the loop's final match count equals its initial one, no reader ran and
the game state passed through unchanged. -/
theorem ctorLoop_count_eq (env : Env) (quick : Bool) :
    ∀ (ps : List (List Byte × ReadFn)) (count : Nat) (g : Game) (fw : FW)
      {g' : Game} {fw' : FW},
    ctorLoop env quick ps count g fw = .ok (count, g', fw') → g' = g := by
  intro ps
  induction ps with
  | nil =>
    intro count g fw g' fw' h
    cases h
    rfl
  | cons pr rest ih =>
    intro count g fw g' fw' h
    obtain ⟨magic, rd⟩ := pr
    simp only [ctorLoop] at h
    by_cases hp : (headerProbe magic fw.dec).1
    · rw [if_pos hp] at h
      rcases hr : rd env quick g { fw with dec := (headerProbe magic fw.dec).2 }
        with e | v <;> rw [hr] at h
      · cases h
      obtain ⟨g2, fw2⟩ := v
      have := ctorLoop_count_mono env quick rest (count + 1) g2 fw2 h
      omega
    · rw [if_neg hp] at h
      exact ih count g _ h

/-- When both the quick and the full run of the probe loop report exactly one
new match, the same single reader ran in both, from the same game state and
the same wrapper, producing the two final game states. -/
theorem ctorLoop_single (env : Env) :
    ∀ (ps : List (List Byte × ReadFn)) (count : Nat) (g : Game) (fw : FW)
      {g1 g2 : Game} {fw1 fw2 : FW},
    ctorLoop env true ps count g fw = .ok (count + 1, g1, fw1) →
    ctorLoop env false ps count g fw = .ok (count + 1, g2, fw2) →
    ∃ rd fw0 fwa fwb, rd ∈ ps.map Prod.snd ∧
      rd env true g fw0 = .ok (g1, fwa) ∧ rd env false g fw0 = .ok (g2, fwb) := by
  intro ps
  induction ps with
  | nil =>
    intro count g fw g1 g2 fw1 fw2 hq hf
    injection hq with hq
    injection hq with hc
    omega
  | cons pr rest ih =>
    intro count g fw g1 g2 fw1 fw2 hq hf
    obtain ⟨magic, rd⟩ := pr
    simp only [ctorLoop] at hq hf
    by_cases hp : (headerProbe magic fw.dec).1
    · rw [if_pos hp] at hq hf
      rcases hrq : rd env true g { fw with dec := (headerProbe magic fw.dec).2 }
        with e | vq <;> rw [hrq] at hq
      · cases hq
      obtain ⟨ga, fwa'⟩ := vq
      rcases hrf : rd env false g { fw with dec := (headerProbe magic fw.dec).2 }
        with e | vf <;> rw [hrf] at hf
      · cases hf
      obtain ⟨gb, fwb'⟩ := vf
      have hga : g1 = ga := ctorLoop_count_eq env true rest (count + 1) ga fwa' hq
      have hgb : g2 = gb := ctorLoop_count_eq env false rest (count + 1) gb fwb' hf
      subst hga
      subst hgb
      exact ⟨rd, { fw with dec := (headerProbe magic fw.dec).2 }, fwa', fwb',
        List.mem_cons_self _ _, hrq, hrf⟩
    · rw [if_neg hp] at hq hf
      obtain ⟨rd2, fw0, fwa, fwb, hmem, ha, hb⟩ := ih count g _ hq hf
      exact ⟨rd2, fw0, fwa, fwb, List.mem_cons_of_mem _ hmem, ha, hb⟩

/-- `readOblivion` in quick and full mode from the same state: the six
summary fields agree, and the quick run leaves the plugin list alone. -/
theorem readOblivion_agree {env : Env} {g g1 g2 : Game} {fw fwa fwb : FW}
    (hq : readOblivion env true g fw = .ok (g1, fwa))
    (hf : readOblivion env false g fw = .ok (g2, fwb)) :
    CoreAgree g1 g2 ∧ g1.plugins = g.plugins := by
  simp only [readOblivion, bind, Except.bind] at hq hf
  rcases hc : readOblivionCore env g fw with e | v <;> rw [hc] at hq hf
  · cases hq
  obtain ⟨gc, fwc⟩ := v
  dsimp only [] at hq hf
  rw [if_pos trivial] at hq
  rw [if_neg (by simp)] at hf
  cases hq
  exact ⟨CoreAgree.of_rest (readOblivionRest_spec hf), (readOblivionCore_spec hc).1⟩

/-- `readSkyrim` in quick and full mode from the same state. -/
theorem readSkyrim_agree {env : Env} {g g1 g2 : Game} {fw fwa fwb : FW}
    (hq : readSkyrim env true g fw = .ok (g1, fwa))
    (hf : readSkyrim env false g fw = .ok (g2, fwb)) :
    CoreAgree g1 g2 ∧ g1.plugins = g.plugins := by
  simp only [readSkyrim, bind, Except.bind] at hq hf
  rcases hc : readSkyrimCore env g fw with e | v <;> rw [hc] at hq hf
  · cases hq
  obtain ⟨version, gc, fwc⟩ := v
  dsimp only [] at hq hf
  rw [if_pos trivial] at hq
  rw [if_neg (by simp)] at hf
  cases hq
  exact ⟨CoreAgree.of_rest (readSkyrimRest_spec hf), (readSkyrimCore_spec hc).1⟩

/-- `readFO3` in quick and full mode from the same state. -/
theorem readFO3_agree {env : Env} {g g1 g2 : Game} {fw fwa fwb : FW}
    (hq : readFO3 env true g fw = .ok (g1, fwa))
    (hf : readFO3 env false g fw = .ok (g2, fwb)) :
    CoreAgree g1 g2 ∧ g1.plugins = g.plugins := by
  simp only [readFO3, bind, Except.bind] at hq hf
  rcases hc : readFO3Core env g fw with e | v <;> rw [hc] at hq hf
  · cases hq
  obtain ⟨w, hgt, gc, fwc⟩ := v
  dsimp only [] at hq hf
  rw [if_pos trivial] at hq
  rw [if_neg (by simp)] at hf
  cases hq
  exact ⟨CoreAgree.of_rest (readFO3Rest_spec hf), (readFO3Core_spec hc).1⟩

/-- `readFO4` in quick and full mode from the same state. -/
theorem readFO4_agree {env : Env} {g g1 g2 : Game} {fw fwa fwb : FW}
    (hq : readFO4 env true g fw = .ok (g1, fwa))
    (hf : readFO4 env false g fw = .ok (g2, fwb)) :
    CoreAgree g1 g2 ∧ g1.plugins = g.plugins := by
  simp only [readFO4, bind, Except.bind] at hq hf
  rcases hc : readFO4Core env g fw with e | v <;> rw [hc] at hq hf
  · cases hq
  obtain ⟨gc, fwc⟩ := v
  dsimp only [] at hq hf
  rw [if_pos trivial] at hq
  rw [if_neg (by simp)] at hf
  cases hq
  exact ⟨CoreAgree.of_rest (readFO4Rest_spec hf), (readFO4Core_spec hc).1⟩

/-- All four readers agree between modes. -/
theorem formatTable_agree : ∀ rd ∈ formatTable.map Prod.snd,
    ∀ (env : Env) (g g1 g2 : Game) (fw fwa fwb : FW),
    rd env true g fw = .ok (g1, fwa) → rd env false g fw = .ok (g2, fwb) →
    CoreAgree g1 g2 ∧ g1.plugins = g.plugins := by
  intro rd hrd
  simp only [formatTable, List.map_cons, List.map_nil, List.mem_cons,
    List.not_mem_nil, or_false] at hrd
  rcases hrd with rfl | rfl | rfl | rfl
  · exact fun env g g1 g2 fw fwa fwb hq hf => readOblivion_agree hq hf
  · exact fun env g g1 g2 fw fwa fwb hq hf => readSkyrim_agree hq hf
  · exact fun env g g1 g2 fw fwa fwb hq hf => readFO3_agree hq hf
  · exact fun env g g1 g2 fw fwa fwb hq hf => readFO4_agree hq hf

/-- How many magic probes matched during a run of the constructor loop
(`none` when the run threw).  The source's `found` flag is `count ≠ 0`; a
count above 1 can only arise when a stream installed mid-parse (a Skyrim SE
decompressed region) itself begins with another format's magic and that
format's reader then also runs. -/
def parseMatchCount (env : Env) (data : List Byte) (quick : Bool) : Option Nat :=
  match ctorLoop env quick formatTable 0 game0
      { dec := { data := data, pos := 0, failed := false },
        hasFieldMarkers := false, bzString := false } with
  | .ok (c, _, _) => some c
  | .error _ => none

/-- The creation-time fallback maps agreeing summaries to agreeing
summaries. -/
theorem applyMtimeFallback_agree (env : Env) {a b : Game} (h : CoreAgree a b) :
    CoreAgree (applyMtimeFallback env a) (applyMtimeFallback env b) := by
  obtain ⟨h1, h2, h3, h4, h5, h6⟩ := h
  unfold applyMtimeFallback
  rw [h6]
  split
  · cases env.statMtime
    · exact ⟨h1, h2, h3, h4, h5, h6⟩
    · exact ⟨h1, h2, h3, h4, h5, rfl⟩
  · exact ⟨h1, h2, h3, h4, h5, h6⟩

/-- Claim C2 as amended: when a file parses successfully in both modes and
exactly one magic probe matches in each run (always the case except for the
pathological Skyrim SE double-match), the two summaries agree on character
name, level, location, playtime, save number and creation time — but NOT on
the plugins: the quick parse's plugin list is empty, because the plugin
sections are read only in full mode (and the screenshot fields differ as
claimed). -/
theorem c2_amended (env : Env) (data : List Byte) {g1 g2 : Game}
    (h1 : gamebryoParse env data true = .ok g1)
    (h2 : gamebryoParse env data false = .ok g2)
    (hq : parseMatchCount env data true = some 1)
    (hf : parseMatchCount env data false = some 1) :
    g1.pcName = g2.pcName ∧ g1.pcLevel = g2.pcLevel ∧
    g1.pcLocation = g2.pcLocation ∧ g1.playtime = g2.playtime ∧
    g1.saveNumber = g2.saveNumber ∧ g1.creationTime = g2.creationTime ∧
    g1.plugins = [] := by
  unfold gamebryoParse at h1 h2
  unfold parseMatchCount at hq hf
  rcases hl1 : ctorLoop env true formatTable 0 game0
      { dec := { data := data, pos := 0, failed := false },
        hasFieldMarkers := false, bzString := false } with e | v1 <;>
    rw [hl1] at h1 hq
  · cases h1
  obtain ⟨c1, ga, fwa⟩ := v1
  dsimp only [] at h1 hq
  injection hq with hq
  rcases hl2 : ctorLoop env false formatTable 0 game0
      { dec := { data := data, pos := 0, failed := false },
        hasFieldMarkers := false, bzString := false } with e | v2 <;>
    rw [hl2] at h2 hf
  · cases h2
  obtain ⟨c2, gb, fwb⟩ := v2
  dsimp only [] at h2 hf
  injection hf with hf
  subst hq
  subst hf
  rw [if_neg (by decide)] at h1 h2
  cases h1
  cases h2
  have h01 : (0 : Nat) + 1 = 1 := rfl
  obtain ⟨rd, fw0, fwc, fwd, hmem, hrq, hrf⟩ :=
    ctorLoop_single env formatTable 0 game0 _ (by rw [h01]; exact hl1)
      (by rw [h01]; exact hl2)
  obtain ⟨hagree, hpl⟩ := formatTable_agree rd hmem env game0 ga gb fw0 fwc fwd hrq hrf
  obtain ⟨f1, f2, f3, f4, f5, f6⟩ := applyMtimeFallback_agree env hagree
  obtain ⟨hps, -, -, -⟩ := applyMtimeFallback_fields env ga
  refine ⟨f1, f2, f3, f4, f5, f6, ?_⟩
  rw [hps, hpl]
  rfl

/-- A Skyrim fixture (1×1 screenshot, one plugin "B") for the C2 witness and
counterexample. -/
def skC2File : List Byte :=
  skPrefix ++ leBytes 4 1 ++ leBytes 4 1 ++ [9, 9, 9]
    ++ [0x4d] ++ leBytes 4 0 ++ [1] ++ leBytes 2 1 ++ [66]

/-- The summaries of the two C2 parses. -/
def c2gq : Game := (gamebryoParse envW skC2File true).toOption.getD game0

def c2gf : Game := (gamebryoParse envW skC2File false).toOption.getD game0

/-- Claim C2, counterexample: a file that parses successfully in both modes
whose plugin lists disagree — quick yields no plugins at all, full yields the
file's plugin list. -/
theorem c2_counterexample :
    gamebryoParse envW skC2File true = .ok c2gq ∧
    gamebryoParse envW skC2File false = .ok c2gf ∧
    c2gq.plugins = [] ∧ c2gf.plugins = ["B"] ∧ c2gq.plugins ≠ c2gf.plugins := by
  refine ⟨by rfl, by rfl, by rfl, by rfl, by decide⟩

/-- Claim C2 amended, witness. -/
theorem c2_amended_witness :
    c2gq.pcName = c2gf.pcName ∧ c2gq.pcLevel = c2gf.pcLevel ∧
    c2gq.pcLocation = c2gf.pcLocation ∧ c2gq.playtime = c2gf.playtime ∧
    c2gq.saveNumber = c2gf.saveNumber ∧ c2gq.creationTime = c2gf.creationTime ∧
    c2gq.plugins = [] :=
  c2_amended envW skC2File (by rfl) (by rfl) (by rfl) (by rfl)

end Gamebryo
